import Mathlib

/-!
Verification of the collection routing and scheduling engine of this repository
(`frontend/src/utils/routeOptimizer.js`).

The JavaScript source is embedded shallowly:

* JS numbers are modelled as exact rationals (`ℚ`).  Numeric literals such as
  `0.01`, `0.30`, `0.70` are taken at their decimal value.
* JS `Infinity` is modelled as `none` in `Option ℚ` where a quantity can be
  infinite (Dijkstra distances, `timeUntilOverflow`, the cycle time); helper
  functions reproduce the float comparison/arithmetic semantics on that
  representation.  Where the source divides by a quantity that can be zero,
  a helper reproduces the JS result of the comparison that the quotient
  feeds into (the quotient itself is `±Infinity`/`NaN` in JS).
* Identifiers (cauldron ids, node ids) are opaque strings in the source and
  are modelled as `ℕ`.
* Maps/objects keyed by id are modelled as association lists in insertion
  order (JS `Map`/`Set` iterate in insertion order, which matters for the
  linear-scan minimum in `dijkstra`).
* Display-only data (names, ISO time strings, `toFixed` formatting,
  `console.log` output, lat/lon locations) is omitted; it is never read by
  the algorithms.
* In-place mutation of shared cauldron objects (the trip builder updates
  `currentLevel` of objects aliased by the scheduler's pool) is modelled by
  returning the updated pool explicitly.
-/

namespace RouteOptimizer

/-! ## Drain-rate estimator (`calculateDrainRatesFromHistory`) -/

/-- One reading of a cauldron level after the normalisation step of
`calculateDrainRatesFromHistory` (timestamp in milliseconds, level in litres). -/
structure LevelReading where
  timestamp : ℚ
  level : ℚ
deriving DecidableEq, Repr

/-- One detected drain event, as pushed by the loop in
`calculateDrainRatesFromHistory` (the ISO time string is display-only and omitted). -/
structure DrainEvt where
  timeDiffMinutes : ℚ
  prevLevel : ℚ
  currLevel : ℚ
  levelChange : ℚ
  observedRate : ℚ
  actualDrainRate : ℚ
deriving DecidableEq, Repr

/-- The body of the pair loop of `calculateDrainRatesFromHistory`: given the
previous and current reading it either produces a drain event or nothing
(invalid time gap, non-decrease, or implausible computed drain rate). -/
def mkPairEvt (fillRate : ℚ) (p : LevelReading × LevelReading) : Option DrainEvt :=
  let timeDiffMinutes := (p.2.timestamp - p.1.timestamp) / (1000 * 60)
  let levelChange := p.2.level - p.1.level
  if timeDiffMinutes ≤ 0 ∨ 240 < timeDiffMinutes then none
  else if levelChange < 0 then
    let observedRate := levelChange / timeDiffMinutes
    let actualDrainRate := fillRate - observedRate
    if 1/100 < actualDrainRate ∧ actualDrainRate < 500 then
      some { timeDiffMinutes := timeDiffMinutes, prevLevel := p.1.level,
             currLevel := p.2.level, levelChange := levelChange,
             observedRate := observedRate, actualDrainRate := actualDrainRate }
    else none
  else none

/-- The drain events detected over consecutive pairs of a sorted reading list. -/
def drainEvents (fillRate : ℚ) (rs : List LevelReading) : List DrainEvt :=
  (rs.zip rs.tail).filterMap (mkPairEvt fillRate)

/-- The per-cauldron drain-rate estimate of `calculateDrainRatesFromHistory`:
default 50 with fewer than two readings or no valid drain event, otherwise
the arithmetic mean of the detected events' drain rates. -/
def calculateDrainRate (fillRate : ℚ) (rs : List LevelReading) : ℚ :=
  if rs.length < 2 then 50
  else
    let evts := drainEvents fillRate rs
    if evts.isEmpty then 50
    else ((evts.map (fun e => e.actualDrainRate)).sum) / (evts.length : ℚ)

/-- Raw level record as consumed from the API (duck-typed field fallbacks of the
source are normalised away; timestamp in milliseconds). -/
structure LevelEntry where
  cauldron_id : ℕ
  timestamp : ℚ
  level : ℚ
deriving DecidableEq, Repr

/-- Cauldron input record (id, max volume, constant fill rate). -/
structure CauldronInput where
  id : ℕ
  maxVolume : ℚ
  fillRate : ℚ
deriving DecidableEq, Repr

/-- Stable insertion of an element into a list sorted by the boolean
comparison `leB` (new element goes after existing equal elements, matching a
stable JS `Array.prototype.sort`). -/
def insertLeB (leB : α → α → Bool) (e : α) : List α → List α
  | [] => [e]
  | x :: xs => if leB x e then x :: insertLeB leB e xs else e :: x :: xs

/-- Stable sort by the boolean comparison `leB`; models the stable JS sort
with a numeric comparator. -/
def sortLeB (leB : α → α → Bool) (l : List α) : List α :=
  l.foldr (insertLeB leB) []

/-- The readings of one cauldron: filtered by id, projected to
(timestamp, level), sorted by timestamp. -/
def readingsFor (cid : ℕ) (allLevels : List LevelEntry) : List LevelReading :=
  sortLeB (fun a b => decide (a.timestamp ≤ b.timestamp))
    ((allLevels.filter (fun l => decide (l.cauldron_id = cid))).map
      (fun l => { timestamp := l.timestamp, level := l.level }))

/-- Drain rate estimates for all cauldrons, as an association list in cauldron
order (the source returns an object keyed by cauldron id). -/
def calculateDrainRatesFromHistory (cauldrons : List CauldronInput)
    (allLevels : List LevelEntry) : List (ℕ × ℚ) :=
  cauldrons.map (fun c => (c.id, calculateDrainRate c.fillRate (readingsFor c.id allLevels)))

/-! Specification-side definitions for the estimator claims. -/

/-- Validity of a consecutive reading pair (positive time gap at most the
240-minute sanity ceiling, strictly decreasing level). -/
def pairValid (p : LevelReading × LevelReading) : Bool :=
  let dt := (p.2.timestamp - p.1.timestamp) / (1000 * 60)
  decide (0 < dt) && decide (dt ≤ 240) && decide (p.2.level < p.1.level)

/-- Drain rate implied by a single reading pair: fill rate minus observed rate. -/
def pairDrainRate (fillRate : ℚ) (p : LevelReading × LevelReading) : ℚ :=
  fillRate - (p.2.level - p.1.level) / ((p.2.timestamp - p.1.timestamp) / (1000 * 60))

/-- The plausible positive band used by the estimator. -/
def bandB (r : ℚ) : Bool :=
  decide (1/100 < r) && decide (r < 500)

/-- Accepted per-pair drain rates, written directly from the specification:
walk consecutive pairs, keep the valid decreasing ones, compute
`fillRate − observedRate`, accept exactly the ones in the plausible band. -/
def specAcceptedDrainRates (fillRate : ℚ) (rs : List LevelReading) : List ℚ :=
  (((rs.zip rs.tail).filter pairValid).map (pairDrainRate fillRate)).filter bandB

/-- Data of one produced drain event: time gap, level change, drain rate. -/
def evtData (e : DrainEvt) : ℚ × ℚ × ℚ :=
  (e.timeDiffMinutes, e.levelChange, e.actualDrainRate)

/-- Time gap of a reading pair in minutes. -/
def pairGap (p : LevelReading × LevelReading) : ℚ :=
  (p.2.timestamp - p.1.timestamp) / (1000 * 60)

/-- Data of one reading pair seen as an event: time gap, level change, drain rate. -/
def pairData (fillRate : ℚ) (p : LevelReading × LevelReading) : ℚ × ℚ × ℚ :=
  (pairGap p, p.2.level - p.1.level, pairDrainRate fillRate p)

/-- Per-pair accepted events, written from the specification sentence describing
how events are detected pair by pair. -/
def perPairAcceptedEvents (fillRate : ℚ) (rs : List LevelReading) : List (ℚ × ℚ × ℚ) :=
  (((rs.zip rs.tail).filter pairValid).map (pairData fillRate)).filter
    (fun d => bandB d.2.2)

/-- Aggregated drops of the maximal strictly-decreasing runs of a reading list,
written from the specification: a decrease extends (or starts) a run, any
non-decrease or discarded pair (non-positive or over-ceiling gap) closes it,
and a run's aggregated drop is the sum of its decreases. -/
def specRunDrops (rs : List LevelReading) : List ℚ :=
  let step := fun (acc : List ℚ × Option ℚ) (p : LevelReading × LevelReading) =>
    let dt := (p.2.timestamp - p.1.timestamp) / (1000 * 60)
    if dt ≤ 0 ∨ 240 < dt then (acc.1 ++ acc.2.toList, none)
    else if p.2.level < p.1.level then
      (acc.1, some (acc.2.getD 0 + (p.1.level - p.2.level)))
    else (acc.1 ++ acc.2.toList, none)
  let r := (rs.zip rs.tail).foldl step ([], none)
  r.1 ++ r.2.toList

/-! ## Travel graph (`buildAdjacencyMap`, `dijkstra`, `getTravelTime`) -/

/-- One connection record (`from`/`to` are renamed `src`/`dst`;
`cost` is the record's `travel_time_minutes`). -/
structure Edge where
  src : ℕ
  dst : ℕ
  cost : ℚ
deriving DecidableEq, Repr

/-- Adjacency structure: association list from node to neighbour list, in
insertion order, mirroring the JS `Map` of arrays. -/
abbrev Adj := List (ℕ × List (ℕ × ℚ))

/-- Add a key with an empty neighbour list if it is not present yet. -/
def adjEnsureKey (adj : Adj) (n : ℕ) : Adj :=
  if adj.any (fun kv => decide (kv.1 = n)) then adj else adj ++ [(n, [])]

/-- Append a neighbour to a key's list. -/
def adjPush (adj : Adj) (n : ℕ) (entry : ℕ × ℚ) : Adj :=
  adj.map (fun kv => if kv.1 = n then (kv.1, kv.2 ++ [entry]) else kv)

/-- Build the adjacency map from the edge records, inserting each edge in
both directions (`buildAdjacencyMap`). -/
def buildAdjacencyMap (edges : List Edge) : Adj :=
  edges.foldl (fun adj e =>
    let adj1 := adjEnsureKey (adjEnsureKey adj e.src) e.dst
    adjPush (adjPush adj1 e.src (e.dst, e.cost)) e.dst (e.src, e.cost)) []

/-- The keys of the adjacency map in insertion order. -/
def adjKeys (adj : Adj) : List ℕ := adj.map (fun kv => kv.1)

/-- Whether a node is a key of the adjacency map (JS `adjacency.has`). -/
def adjHasKey (adj : Adj) (n : ℕ) : Bool :=
  adj.any (fun kv => decide (kv.1 = n))

/-- Neighbour list of a node (empty when absent, as in `adjacency.get(x) || []`). -/
def neighborsOf (adj : Adj) (n : ℕ) : List (ℕ × ℚ) :=
  match adj.find? (fun kv => decide (kv.1 = n)) with
  | some kv => kv.2
  | none => []

/-- Strict comparison of possibly-infinite distances (`none` is `Infinity`). -/
def optLtB : Option ℚ → Option ℚ → Bool
  | some x, some y => decide (x < y)
  | some _, none => true
  | none, _ => false

/-- The linear scan of `dijkstra` selecting the unvisited node of minimum
finite distance; ties keep the first node in iteration order, and `none` is
returned when every distance is infinite (the JS loop's `currentNode === null
|| minDist === Infinity` break). -/
def scanMin (dist : ℕ → Option ℚ) (l : List ℕ) : Option ℕ :=
  (l.foldl (fun acc n => if optLtB (dist n) acc.2 then (some n, dist n) else acc)
    ((none : Option ℕ), (none : Option ℚ))).1

/-- Relaxation of the neighbours of `current` over the still-unvisited nodes. -/
def relaxNbrs (current : ℕ) (unvisited : List ℕ) (nbrs : List (ℕ × ℚ))
    (dp : (ℕ → Option ℚ) × (ℕ → Option ℕ)) : (ℕ → Option ℚ) × (ℕ → Option ℕ) :=
  nbrs.foldl (fun dp nc =>
    if nc.1 ∈ unvisited then
      let alt := match dp.1 current with
        | some dc => some (dc + nc.2)
        | none => none
      if optLtB alt (dp.1 nc.1) then
        ((fun n => if n = nc.1 then alt else dp.1 n),
         (fun n => if n = nc.1 then some current else dp.2 n))
      else dp
    else dp) dp

/-- The main loop of `dijkstra`, with fuel bounding the number of iterations
(each iteration removes one node from the unvisited set, so the initial number
of nodes suffices). -/
def dijkstraRun (adj : Adj) (endNode : ℕ) :
    (ℕ → Option ℚ) → (ℕ → Option ℕ) → List ℕ → ℕ → (ℕ → Option ℚ) × (ℕ → Option ℕ)
  | dist, prev, _, 0 => (dist, prev)
  | dist, prev, unvisited, fuel+1 =>
    if unvisited.isEmpty then (dist, prev)
    else match scanMin dist unvisited with
      | none => (dist, prev)
      | some current =>
        if current = endNode then (dist, prev)
        else
          let unvisited2 := unvisited.erase current
          let dp := relaxNbrs current unvisited2 (neighborsOf adj current) (dist, prev)
          dijkstraRun adj endNode dp.1 dp.2 unvisited2 fuel

/-- The predecessor chain ending at `endNode`, innermost first (the JS loop
`while (current !== undefined) { path.unshift(current); ... }`); the fuel
covers any predecessor forest over the graph's nodes. -/
def reconstructChain (prev : ℕ → Option ℕ) (endNode : ℕ) : ℕ → List ℕ
  | 0 => []
  | fuel+1 =>
    endNode :: (match prev endNode with
      | none => []
      | some p => reconstructChain prev p fuel)

/-- Result of a `dijkstra` query: possibly-infinite distance (`none` models
both JS `Infinity` and the `undefined` of a missing key) and the path when one
of more than one node was reconstructed (`null` otherwise). -/
structure DijkstraResult where
  dist : Option ℚ
  path : Option (List ℕ)
deriving DecidableEq, Repr

/-- Dijkstra's algorithm as implemented in the source: linear-scan minimum,
early exit at the target node, path reconstruction from predecessors. -/
def dijkstra (adj : Adj) (startNode endNode : ℕ) : DijkstraResult :=
  let dist0 : ℕ → Option ℚ := fun n => if n = startNode then some 0 else none
  let unvisited0 := adjKeys adj
  let dp := dijkstraRun adj endNode dist0 (fun _ => none) unvisited0 unvisited0.length
  let chain := reconstructChain dp.2 endNode (unvisited0.length + 1)
  { dist := dp.1 endNode
    path := if 1 < chain.length then some chain.reverse else none }

/-- Travel time between two nodes (`getTravelTime`): zero on equal nodes, the
first direct edge's cost when one exists, otherwise the Dijkstra distance
(`none` models the JS `null`/`undefined` returned when unreachable). -/
def getTravelTime (fromId toId : ℕ) (adjacency : Adj) : Option ℚ :=
  if fromId = toId then some 0
  else match (neighborsOf adjacency fromId).find? (fun nc => decide (nc.1 = toId)) with
    | some nc => some nc.2
    | none => (dijkstra adjacency fromId toId).dist

/-! Walks over the adjacency structure, for the shortest-distance claims. -/

/-- Cost-annotated walks over the adjacency structure: `WalkCost adj a b w`
holds when there is a walk from `a` to `b` whose edge costs sum to `w`. -/
inductive WalkCost (adj : Adj) : ℕ → ℕ → ℚ → Prop
  | nil (a : ℕ) : WalkCost adj a a 0
  | cons {a b d : ℕ} {c w : ℚ} (h : (b, c) ∈ neighborsOf adj a)
      (rest : WalkCost adj b d w) : WalkCost adj a d (c + w)

/-- A value is the shortest walk cost between two nodes when some walk attains
it and no walk costs less. -/
def IsShortestWalk (adj : Adj) (a b : ℕ) (x : ℚ) : Prop :=
  WalkCost adj a b x ∧ ∀ y, WalkCost adj a b y → x ≤ y

/-! ## Cauldron state (`calculateOverflowTimes`) and drain policy -/

/-- Enriched cauldron state as produced by `calculateOverflowTimes` (name and
location are display-only and omitted).  `timeUntilOverflow` is `none` for the
JS `Infinity` of a non-positive fill rate. -/
structure Cauldron where
  id : ℕ
  currentLevel : ℚ
  maxVolume : ℚ
  fillRate : ℚ
  drainRate : ℚ
  timeUntilOverflow : Option ℚ
deriving DecidableEq, Repr

/-- Lookup in the drain-rate association list with the JS `|| 50` fallback
(missing key or falsy zero both give the default 50). -/
def drainRateLookup (drainRates : List (ℕ × ℚ)) (cid : ℕ) : ℚ :=
  match drainRates.find? (fun kv => decide (kv.1 = cid)) with
  | some kv => if kv.2 = 0 then 50 else kv.2
  | none => 50

/-- Enrich the input cauldrons with current level, drain rate and time until
overflow (`calculateOverflowTimes`).  The `|| 1000` fallback on a falsy max
volume and the `|| 0` fallback on a missing level record are reproduced. -/
def calculateOverflowTimes (cauldrons : List CauldronInput) (levels : List LevelEntry)
    (drainRates : List (ℕ × ℚ)) : List Cauldron :=
  cauldrons.map (fun c =>
    let currentLevel : ℚ := match levels.find? (fun l => decide (l.cauldron_id = c.id)) with
      | some l => l.level
      | none => 0
    let maxVolume : ℚ := if c.maxVolume = 0 then 1000 else c.maxVolume
    { id := c.id
      currentLevel := currentLevel
      maxVolume := maxVolume
      fillRate := c.fillRate
      drainRate := drainRateLookup drainRates c.id
      timeUntilOverflow :=
        if (0:ℚ) < c.fillRate then some ((maxVolume - currentLevel) / c.fillRate) else none })

/-- Time needed to drain a cauldron (`calculateDrainTime`): fixed 30 minutes
when it fills at least as fast as it drains, otherwise the time to remove the
bounded target volume at the effective rate, at least 5 minutes.  The JS
`cauldron.drainRate || 50` falsy fallback is reproduced. -/
def calculateDrainTime (c : Cauldron) (currentLevel : ℚ) : ℚ :=
  let drainRate := if c.drainRate = 0 then 50 else c.drainRate
  let effectiveDrainRate := drainRate - c.fillRate
  if effectiveDrainRate ≤ 0 then 30
  else
    let targetLevel := c.maxVolume * (30/100)
    let volumeNeeded := max 0 (currentLevel - targetLevel)
    let actualVolumeToDrain := min (min volumeNeeded 100) (currentLevel * (7/10))
    let drainTime := actualVolumeToDrain / effectiveDrainRate
    max 5 drainTime

/-- Volume collected at a stop (`calculateDrainVolume`): the minimum of the
volume needed to reach the 30% target, 70% of the current level, and the
courier capacity — floored at the 10-litre worthwhile minimum.  The
`drainTime` parameter is unused, as in the source. -/
def calculateDrainVolume (c : Cauldron) (currentLevel _drainTime maxCapacity : ℚ) : ℚ :=
  let targetLevel := c.maxVolume * (30/100)
  let volumeNeeded := max 0 (currentLevel - targetLevel)
  let availableToDrain := max 0 (currentLevel * (7/10))
  let witchCapacityLimit := maxCapacity
  let volumeCollected := min (min volumeNeeded availableToDrain) witchCapacityLimit
  max 10 volumeCollected

/-! ## Trip builder (`findNextCriticalCauldron`, `buildSingleRoute`) -/

/-- A cauldron found reachable from the current node, carrying the Dijkstra
distance and path (`getReachableCauldrons`). -/
structure Reached extends Cauldron where
  pathDistance : ℚ
  path : List ℕ
deriving DecidableEq, Repr

/-- The cauldrons of the pool reachable from the current node: kept exactly
when the Dijkstra distance is finite and a path was reconstructed. -/
def getReachableCauldrons (currentNodeId : ℕ) (unvisited : List Cauldron)
    (adjacency : Adj) : List Reached :=
  unvisited.filterMap (fun c =>
    let r := dijkstra adjacency currentNodeId c.id
    match r.dist, r.path with
    | some d, some p => some { toCauldron := c, pathDistance := d, path := p }
    | _, _ => none)

/-- A candidate stop as scored by `findNextCriticalCauldron`. -/
structure Candidate extends Cauldron where
  travelTime : ℚ
  arrivalTime : ℚ
  drainTime : ℚ
  volumeToCollect : ℚ
  path : List ℕ
deriving DecidableEq, Repr

/-- Build the candidate record for a reachable cauldron at the given current
time and courier capacity. -/
def candidateOf (currentTime maxCapacity : ℚ) (r : Reached) : Candidate :=
  { toCauldron := r.toCauldron
    travelTime := r.pathDistance
    arrivalTime := currentTime + r.pathDistance
    drainTime := calculateDrainTime r.toCauldron r.currentLevel
    volumeToCollect := calculateDrainVolume r.toCauldron r.currentLevel
      (calculateDrainTime r.toCauldron r.currentLevel) maxCapacity
    path := r.path }

/-- Whether the candidate would be reached more than 60 minutes after its
overflow deadline (`timeBuffer < -60`); an infinite time-until-overflow is
never late. -/
def timeBufferLate : Option ℚ → ℚ → Bool
  | none, _ => false
  | some t, arr => decide (t - arr < -60)

/-- The rejection test of `findNextCriticalCauldron`: on the first stop only an
absolute capacity ceiling applies, afterwards lateness and remaining capacity. -/
def fnccReject (cand : Candidate) (currentCapacity maxCapacity : ℚ)
    (isFirstStop : Bool) : Bool :=
  if isFirstStop then decide (maxCapacity < cand.volumeToCollect)
  else timeBufferLate cand.timeUntilOverflow cand.arrivalTime
    || decide (maxCapacity < currentCapacity + cand.volumeToCollect)

/-- The candidate score: urgency, proximity, half-weighted efficiency, a bonus
for fitting in the remaining capacity, and a large first-stop bonus.  The JS
`Math.max(1, Infinity)` and `10000 / Infinity` give urgency 0 for an infinite
time-until-overflow. -/
def fnccScore (cand : Candidate) (currentCapacity maxCapacity : ℚ)
    (isFirstStop : Bool) : ℚ :=
  let urgencyScore := match cand.timeUntilOverflow with
    | none => 0
    | some t => max 0 (10000 / max 1 t)
  let efficiencyScore := cand.volumeToCollect / max 1 (cand.travelTime + cand.drainTime)
  let proximityScore := 1000 / max 1 cand.travelTime
  let capacityBonus : ℚ :=
    if currentCapacity + cand.volumeToCollect ≤ maxCapacity then 2000 else 0
  let firstStopBonus : ℚ := if isFirstStop then 10000 else 0
  urgencyScore + proximityScore + efficiencyScore * (1/2) + capacityBonus + firstStopBonus

/-- One step of the best-candidate selection (JS `score > bestScore` with
`bestScore` starting at `-Infinity`, so the first unrejected candidate is
always stored). -/
def fnccStep (currentCapacity maxCapacity : ℚ) (isFirstStop : Bool)
    (acc : Option (ℚ × Candidate)) (cand : Candidate) : Option (ℚ × Candidate) :=
  if fnccReject cand currentCapacity maxCapacity isFirstStop then acc
  else
    let score := fnccScore cand currentCapacity maxCapacity isFirstStop
    match acc with
    | none => some (score, cand)
    | some best => if best.1 < score then some (score, cand) else some best

/-- Select the best next cauldron (`findNextCriticalCauldron`), or `none` when
no reachable candidate survives the rejection tests. -/
def findNextCriticalCauldron (currentNodeId : ℕ) (unvisited : List Cauldron)
    (currentTime : ℚ) (adjacency : Adj) (currentCapacity maxCapacity : ℚ)
    (isFirstStop : Bool) : Option Candidate :=
  let reachable := getReachableCauldrons currentNodeId unvisited adjacency
  (((reachable.map (candidateOf currentTime maxCapacity)).foldl
      (fnccStep currentCapacity maxCapacity isFirstStop) none).map (fun p => p.2))

/-- A stop of a trip (`cauldronName` is display-only and omitted; the stops the
loop pushes carry no `isMarket` field in JS, i.e. a falsy one, modelled `false`). -/
structure Stop where
  cauldronId : ℕ
  arrivalTime : ℚ
  drainTime : ℚ
  volumeCollected : ℚ
  travelTime : ℚ
  isMarket : Bool
  path : Option (List ℕ)
deriving DecidableEq, Repr

/-- One trip: ordered stops and totals. -/
structure Route where
  stops : List Stop
  totalTime : ℚ
  totalVolume : ℚ
  totalDistance : ℚ
deriving DecidableEq, Repr

/-- The stop record pushed for a committed candidate. -/
def mkStop (cand : Candidate) : Stop :=
  { cauldronId := cand.id
    arrivalTime := cand.arrivalTime
    drainTime := cand.drainTime
    volumeCollected := cand.volumeToCollect
    travelTime := cand.travelTime
    isMarket := false
    path := some cand.path }

/-- Update the first cauldron with the given id to the given level (the JS
mutation `cauldronData.currentLevel = afterDrainLevel` on the first `find` hit). -/
def updateFirstLevel : List Cauldron → ℕ → ℚ → List Cauldron
  | [], _, _ => []
  | c :: cs, i, lv =>
    if c.id = i then { c with currentLevel := lv } :: cs
    else c :: updateFirstLevel cs i lv

/-- Remove the first cauldron with the given id (JS `findIndex` + `splice`). -/
def removeFirstId : List Cauldron → ℕ → List Cauldron
  | [], _ => []
  | c :: cs, i => if c.id = i then cs else c :: removeFirstId cs i

/-- The ids of a cauldron list. -/
def idsOf (l : List Cauldron) : List ℕ := l.map (fun c => c.id)

/-- The `percentFullAfter < 50` test deciding whether a cauldron counts as
fully serviced; reproduces the JS float semantics of `after / max * 100 < 50`
when `max` is zero (`±Infinity`/`NaN`). -/
def jsPctLt50 (after maxVolume : ℚ) : Bool :=
  if maxVolume = 0 then decide (after < 0)
  else decide (after / maxVolume * 100 < 50)

/-- State of the trip-building loop of `buildSingleRoute`.  `pool` is the
caller's array, whose cauldron objects the JS code mutates through aliasing;
`remaining` is the working copy from which committed/serviced cauldrons are
spliced. -/
structure BSRState where
  stops : List Stop
  totalDistance : ℚ
  fullyServiced : List ℕ
  currentNode : ℕ
  currentTime : ℚ
  currentCapacity : ℚ
  isFirstStop : Bool
  remaining : List Cauldron
  pool : List Cauldron

/-- Commit a selected candidate: push the stop, update the found cauldron's
level in both the working list and the aliased pool, mark/splice it when below
the 50% threshold, and advance node, time and carried volume. -/
def bsrCommit (s : BSRState) (cand : Candidate) : BSRState :=
  let rps : List Cauldron × List Cauldron × Bool :=
    match s.remaining.find? (fun c => decide (c.id = cand.id)) with
    | none => (s.remaining, s.pool, false)
    | some cd =>
      let afterDrainLevel := cd.currentLevel - cand.volumeToCollect
      let rem1 := updateFirstLevel s.remaining cand.id afterDrainLevel
      let pl1 := updateFirstLevel s.pool cand.id afterDrainLevel
      if jsPctLt50 afterDrainLevel cd.maxVolume then (removeFirstId rem1 cand.id, pl1, true)
      else (rem1, pl1, false)
  { stops := s.stops ++ [mkStop cand]
    totalDistance := s.totalDistance + cand.travelTime
    fullyServiced := s.fullyServiced ++ (if rps.2.2 then [cand.id] else [])
    currentNode := cand.id
    currentTime := cand.arrivalTime + cand.drainTime
    currentCapacity := s.currentCapacity + cand.volumeToCollect
    isFirstStop := false
    remaining := rps.1
    pool := rps.2.1 }

/-- The trip-building loop: up to `MAX_ITERATIONS = 10` iterations, stopping
when the working list is empty, no candidate is feasible, capacity is full
(`currentCapacity >= courierCapacity`) or the 120-minute trip ceiling is hit. -/
def bsrLoop (adjacency : Adj) (courierCapacity : ℚ) : ℕ → BSRState → BSRState
  | 0, s => s
  | fuel+1, s =>
    if s.remaining.isEmpty then s
    else match findNextCriticalCauldron s.currentNode s.remaining s.currentTime
        adjacency s.currentCapacity courierCapacity s.isFirstStop with
      | none => s
      | some cand =>
        let s2 := bsrCommit s cand
        if courierCapacity ≤ s2.currentCapacity then s2
        else if 120 ≤ s2.currentTime then s2
        else bsrLoop adjacency courierCapacity fuel s2

/-- Build one trip from the market (`buildSingleRoute`).  Returns the route,
the ids that were fully serviced, and the pool with the levels the trip's
aliased mutations left behind.  A trip with stops gets the closing market stop
with the 15-minute unload; an empty trip keeps zero totals. -/
def buildSingleRoute (marketId : ℕ) (unvisited : List Cauldron) (adjacency : Adj)
    (courierCapacity : ℚ) (startTime : ℚ) : Route × List ℕ × List Cauldron :=
  let f := bsrLoop adjacency courierCapacity 10
    { stops := []
      totalDistance := 0
      fullyServiced := []
      currentNode := marketId
      currentTime := startTime
      currentCapacity := 0
      isFirstStop := true
      remaining := unvisited
      pool := unvisited }
  if f.stops.isEmpty then
    ({ stops := [], totalTime := 0, totalVolume := 0, totalDistance := f.totalDistance },
     f.fullyServiced, f.pool)
  else
    let returnResult := dijkstra adjacency f.currentNode marketId
    let returnTime : ℚ := match returnResult.dist with
      | some d => d
      | none => 0
    let unloadTime : ℚ := 15
    let marketStop : Stop :=
      { cauldronId := marketId
        arrivalTime := f.currentTime + returnTime
        drainTime := unloadTime
        volumeCollected := 0
        travelTime := returnTime
        isMarket := true
        path := returnResult.path }
    ({ stops := f.stops ++ [marketStop]
       totalTime := f.currentTime + returnTime + unloadTime
       totalVolume := f.currentCapacity
       totalDistance := f.totalDistance + returnTime },
     f.fullyServiced, f.pool)

/-- Sum of collected volumes over a list of stops. -/
def sumVolumes (stops : List Stop) : ℚ :=
  (stops.map (fun st => st.volumeCollected)).sum

/-! ## Cycle time, fleet scheduler and daily schedule (`optimizeRoutes`) -/

/-- Maximum sustainable cycle time (`calculateMaxCycleTime`): 70% of the
minimum over positive-fill cauldrons of the time to fill 70% of the max
volume; `none` is the JS `Infinity` kept when no cauldron has positive fill. -/
def calculateMaxCycleTime (cauldrons : List Cauldron) : Option ℚ :=
  let minTimeToFill := cauldrons.foldl (fun acc c =>
    if (0:ℚ) < c.fillRate then
      let timeToFill := c.maxVolume * (70/100) / c.fillRate
      match acc with
      | none => some timeToFill
      | some m => some (min m timeToFill)
    else acc) (none : Option ℚ)
  match minTimeToFill with
  | none => none
  | some m => some (m * (70/100))

/-- A courier record; only the carrying capacity is read by the engine. -/
structure Courier where
  capacity : ℚ
deriving DecidableEq, Repr

/-- The capacity used for every trip
(`couriers[0]?.max_carrying_capacity || couriers[0]?.capacity || 100`):
the first courier's capacity, with the default 100 for an empty roster or a
falsy capacity. -/
def courierCapacityOf (couriers : List Courier) : ℚ :=
  match couriers with
  | [] => 100
  | c :: _ => if c.capacity = 0 then 100 else c.capacity

/-- A courier's schedule: identity (modelled by index; the JS letter name is
display-only), capacity, and the list of trips assigned so far. -/
structure CourierRoute where
  witchId : ℕ
  capacity : ℚ
  trips : List Route
deriving DecidableEq, Repr

/-- Append a trip to the witch with the given index, creating its entry at the
end of the list when absent (JS `routes.find(...)` / `routes.push(...)`). -/
def addTrip (routes : List CourierRoute) (wIdx : ℕ) (cap : ℚ) (trip : Route) :
    List CourierRoute :=
  if routes.any (fun r => decide (r.witchId = wIdx)) then
    routes.map (fun r => if r.witchId = wIdx then { r with trips := r.trips ++ [trip] } else r)
  else routes ++ [{ witchId := wIdx, capacity := cap, trips := [trip] }]

/-- State of the scheduling loop of `optimizeRoutes`. -/
structure ORState where
  routes : List CourierRoute
  unvisited : List Cauldron
  visitCount : ℕ → ℕ
  witchIndex : ℕ
  totalTrips : ℕ

/-- The scheduling loop: keep building trips while cauldrons need service and
fewer than 200 trips were made; stop when a trip fully services nothing and
makes no stop at all; every 5th trip with work left admits one more witch;
cauldrons visited 10 times are considered managed and dropped. -/
def orLoop (marketId : ℕ) (adjacency : Adj) (courierCapacity : ℚ) :
    ℕ → ORState → ORState
  | 0, s => s
  | fuel+1, s =>
    if s.unvisited.isEmpty then s
    else if 200 ≤ s.totalTrips then s
    else
      let rvp := buildSingleRoute marketId s.unvisited adjacency courierCapacity 0
      let route := rvp.1
      let visited := rvp.2.1
      let pool2 := rvp.2.2
      let tripStops := route.stops.filter (fun st => !st.isMarket)
      if visited.isEmpty ∧ tripStops.isEmpty then s
      else
        let vc2 := fun n =>
          s.visitCount n + tripStops.countP (fun st => decide (st.cauldronId = n))
        let routes2 := addTrip s.routes s.witchIndex courierCapacity route
        let unvisited2 := visited.foldl (fun l cid => removeFirstId l cid) pool2
        let toRemove := (unvisited2.filter (fun c => decide (10 ≤ vc2 c.id))).map
          (fun c => c.id)
        let unvisited3 := toRemove.foldl (fun l cid => removeFirstId l cid) unvisited2
        let totalTrips2 := s.totalTrips + 1
        let witchIndex2 :=
          if totalTrips2 % 5 = 0 ∧ ¬unvisited3.isEmpty then s.witchIndex + 1
          else s.witchIndex
        orLoop marketId adjacency courierCapacity fuel
          { routes := routes2
            unvisited := unvisited3
            visitCount := vc2
            witchIndex := witchIndex2
            totalTrips := totalTrips2 }

/-- The reachability filter of `optimizeRoutes`: the cauldron's node must be a
graph key and its Dijkstra distance from the market finite. -/
def reachableFromMarket (adjacency : Adj) (marketId : ℕ) (c : Cauldron) : Bool :=
  adjHasKey adjacency c.id &&
    !(decide ((dijkstra adjacency marketId c.id).dist = none))

/-- One entry of the flattened daily schedule (clock-time strings are
display-only and omitted). -/
structure ScheduleEntry where
  witchId : ℕ
  tripNumber : ℕ
  totalTrips : ℕ
  startMinute : ℚ
  route : Route
deriving DecidableEq, Repr

/-- The flattened daily schedule. -/
structure DailySchedule where
  totalShifts : ℕ
  schedule : List ScheduleEntry
deriving DecidableEq, Repr

/-- The entries of one witch: trips laid back to back from minute zero. -/
def witchEntries (w : CourierRoute) : List ScheduleEntry :=
  (w.trips.foldl (fun (acc : List ScheduleEntry × ℚ) trip =>
    (acc.1 ++ [{ witchId := w.witchId
                 tripNumber := acc.1.length + 1
                 totalTrips := w.trips.length
                 startMinute := acc.2
                 route := trip }],
     acc.2 + trip.totalTime)) ([], 0)).1

/-- Lay out all witches' trips on the day and sort chronologically
(`generateDailySchedule`; its `maxCycleTime` parameter is unused in JS too). -/
def generateDailySchedule (routes : List CourierRoute) (_maxCycleTime : Option ℚ) :
    DailySchedule :=
  let schedule := sortLeB (fun a b => decide (a.startMinute ≤ b.startMinute))
    (routes.flatMap witchEntries)
  { totalShifts := schedule.length, schedule := schedule }

/-- Maximum of a list of rationals, `none` for the empty list (JS
`Math.max(...[])` is `-Infinity`). -/
def maxTimeOf (l : List ℚ) : Option ℚ :=
  l.foldl (fun acc x =>
    match acc with
    | none => some x
    | some m => some (max m x)) none

/-- Aggregate statistics of a schedule.  The `toFixed` display strings and the
ratio fields that are `NaN` on an empty route set (`avgTripsPerWitch`,
`avgCapacityUtilization`, `cycleTimeHours`) are omitted; `totalTime` is
`none` for an empty route set (JS `-Infinity`). -/
structure Stats where
  totalTime : Option ℚ
  totalVolume : ℚ
  totalStops : ℕ
  totalTrips : ℕ
  cauldronsCovered : ℕ
  unreachableCauldrons : ℕ
deriving DecidableEq, Repr

/-- The value returned by a successful `optimizeRoutes` run. -/
structure OptimizeResult where
  routes : List CourierRoute
  drainRates : List (ℕ × ℚ)
  minWitches : ℕ
  totalTrips : ℕ
  maxCycleTime : Option ℚ
  dailySchedule : DailySchedule
  stats : Stats
deriving DecidableEq, Repr

/-- Assemble the returned schedule from the scheduling loop's final state. -/
def assembleResult (marketId : ℕ) (adjacency : Adj)
    (reachableCauldrons : List Cauldron) (drainRates : List (ℕ × ℚ))
    (courierCapacity : ℚ) : OptimizeResult :=
  let sorted := sortLeB (fun a b =>
    match a.timeUntilOverflow, b.timeUntilOverflow with
    | _, none => true
    | none, some _ => false
    | some x, some y => decide (x ≤ y)) reachableCauldrons
  let maxCycleTime := calculateMaxCycleTime sorted
  let f := orLoop marketId adjacency courierCapacity 200
    { routes := []
      unvisited := sorted
      visitCount := fun _ => 0
      witchIndex := 0
      totalTrips := 0 }
  let totalVolume := (f.routes.map (fun w => (w.trips.map (fun t => t.totalVolume)).sum)).sum
  let totalStops := (f.routes.map (fun w =>
    (w.trips.map (fun t => (t.stops.filter (fun st => !st.isMarket)).length)).sum)).sum
  let longestTripTime := maxTimeOf (f.routes.flatMap (fun w =>
    w.trips.map (fun t => t.totalTime)))
  { routes := f.routes
    drainRates := drainRates
    minWitches := f.routes.length
    totalTrips := f.totalTrips
    maxCycleTime := maxCycleTime
    dailySchedule := generateDailySchedule f.routes maxCycleTime
    stats :=
      { totalTime := longestTripTime
        totalVolume := totalVolume
        totalStops := totalStops
        totalTrips := f.totalTrips
        cauldronsCovered := reachableCauldrons.length - f.unvisited.length
        unreachableCauldrons := f.unvisited.length } }

/-- The main optimisation entry (`optimizeRoutes`): `none` models the JS
`null` returned when the market is missing from the graph or no cauldron is
reachable; otherwise a full schedule is produced. -/
def optimizeRoutes (cauldrons : List CauldronInput) (levels : List LevelEntry)
    (marketId : ℕ) (edges : List Edge) (couriers : List Courier)
    (allLevels : List LevelEntry) : Option OptimizeResult :=
  let drainRates := calculateDrainRatesFromHistory cauldrons allLevels
  let adjacency := buildAdjacencyMap edges
  if adjHasKey adjacency marketId then
    let cauldronStates := calculateOverflowTimes cauldrons levels drainRates
    let reachableCauldrons := cauldronStates.filter (reachableFromMarket adjacency marketId)
    if reachableCauldrons.isEmpty then none
    else some (assembleResult marketId adjacency reachableCauldrons drainRates
      (courierCapacityOf couriers))
  else none

/-! ## Overflow verifier (`verifyNoOverflows`) -/

/-- One scheduled drain event extracted from the routes (witch name and
trip/stop numbers are display-only and omitted). -/
structure SimEvent where
  time : ℚ
  cauldronId : ℕ
  volumeDrained : ℚ
  drainDuration : ℚ
deriving DecidableEq, Repr

/-- All non-market stops of all trips as drain events (in the source the
`stop.cauldronId` truthiness test always passes, ids being non-empty strings). -/
def collectDrainEvents (routes : List CourierRoute) : List SimEvent :=
  routes.flatMap (fun w => w.trips.flatMap (fun t => t.stops.filterMap (fun st =>
    if st.isMarket then none
    else some { time := st.arrivalTime
                cauldronId := st.cauldronId
                volumeDrained := st.volumeCollected
                drainDuration := st.drainTime })))

/-- An overflow issue (the message string is display-only and omitted). -/
structure OverflowIssue where
  cauldronId : ℕ
  time : ℚ
  level : ℚ
  overflow : ℚ
deriving DecidableEq, Repr

/-- A near-full warning. -/
structure CriticalWarning where
  cauldronId : ℕ
  time : ℚ
  level : ℚ
  percentFull : ℚ
deriving DecidableEq, Repr

/-- Whether `num / den < bound` holds under JS float semantics when `den` may
be zero: a zero denominator gives `±Infinity` (or `NaN` for `0/0`), so the
comparison holds exactly when `num` is negative. -/
def jsDivLtB (num den bound : ℚ) : Bool :=
  if den = 0 then decide (num < 0) else decide (num / den < bound)

/-- Whether the pre-visit level crosses the 95% warning threshold, with the JS
float semantics of a zero max volume. -/
def jsPctGt95 (level maxVolume : ℚ) : Bool :=
  if maxVolume = 0 then decide (0 < level)
  else decide (95 < level / maxVolume * 100)

/-- The per-event simulation of `verifyNoOverflows` for one cauldron,
returning the overflow issues it pushes: fill from the current time to the
event, record an overflow when the pre-visit level exceeds the max volume,
apply the drain, and after the last event record an unsustainability issue
when the projected time to overflow is below the cycle time.  (Issue `time`
fields involving a division by a zero fill rate are `±Infinity`/`NaN` in JS
and arbitrary rationals here; no claim reads them.) -/
def simIssues (c : Cauldron) : List SimEvent → ℚ → ℚ → List OverflowIssue
  | [], _, _ => []
  | e :: rest, level, time =>
    let level1 := level + c.fillRate * (e.time - time)
    let head : List OverflowIssue :=
      if c.maxVolume < level1 then
        [{ cauldronId := c.id, time := e.time, level := level1,
           overflow := level1 - c.maxVolume }]
      else []
    let level2 := level1 - e.volumeDrained
    let time2 := e.time + e.drainDuration
    let lastIss : List OverflowIssue :=
      if rest.isEmpty then
        if jsDivLtB (c.maxVolume - level2) c.fillRate time2 then
          [{ cauldronId := c.id, time := time2 + (c.maxVolume - level2) / c.fillRate,
             level := c.maxVolume, overflow := 0 }]
        else []
      else []
    head ++ lastIss ++ simIssues c rest level2 time2

/-- The near-full warnings of the same simulation (computed by the source but
never read back into the returned boolean). -/
def simWarnings (c : Cauldron) : List SimEvent → ℚ → ℚ → List CriticalWarning
  | [], _, _ => []
  | e :: rest, level, time =>
    let level1 := level + c.fillRate * (e.time - time)
    let head : List CriticalWarning :=
      if c.maxVolume < level1 then []
      else if jsPctGt95 level1 c.maxVolume then
        [{ cauldronId := c.id, time := e.time, level := level1,
           percentFull := level1 / c.maxVolume * 100 }]
      else []
    head ++ simWarnings c rest (level1 - e.volumeDrained) (e.time + e.drainDuration)

/-- The issues `verifyNoOverflows` records for one cauldron, given the sorted
event list: a no-service issue when nothing is scheduled and the cauldron
would overflow within 24 hours, otherwise the simulation's issues. -/
def cauldronIssues (events : List SimEvent) (c : Cauldron) : List OverflowIssue :=
  let evs := events.filter (fun e => decide (e.cauldronId = c.id))
  if evs.isEmpty then
    if jsDivLtB (c.maxVolume - c.currentLevel) c.fillRate 1440 then
      [{ cauldronId := c.id, time := (c.maxVolume - c.currentLevel) / c.fillRate,
         level := c.maxVolume, overflow := 0 }]
    else []
  else simIssues c evs c.currentLevel 0

/-- The overflow verifier (`verifyNoOverflows`): extract all drain events,
sort them by time, simulate every cauldron, and report `true` exactly when no
overflow issue was recorded.  (The source receives a `levels` argument it
never reads; it is omitted.) -/
def verifyNoOverflows (routes : List CourierRoute) (cauldronStates : List Cauldron) :
    Bool :=
  let events := sortLeB (fun a b => decide (a.time ≤ b.time)) (collectDrainEvents routes)
  (cauldronStates.flatMap (cauldronIssues events)).isEmpty

/-- The time-sorted drain events of one cauldron in a schedule. -/
def eventsForCauldron (routes : List CourierRoute) (cid : ℕ) : List SimEvent :=
  (sortLeB (fun a b => decide (a.time ≤ b.time)) (collectDrainEvents routes)).filter
    (fun e => decide (e.cauldronId = cid))

/-- The pre-visit levels of the replay: level reached by filling from the
previous visit's end until each scheduled visit, before its drain is applied. -/
def preVisitLevels (c : Cauldron) : List SimEvent → ℚ → ℚ → List ℚ
  | [], _, _ => []
  | e :: rest, level, time =>
    let level1 := level + c.fillRate * (e.time - time)
    level1 :: preVisitLevels c rest (level1 - e.volumeDrained) (e.time + e.drainDuration)

/-- Checks, over every cauldron, that replaying the schedule's drain events in
time order against the cauldron's fill rate and starting level never yields a
pre-visit level strictly above the max volume. -/
def statesPreVisitOk (routes : List CourierRoute) (cauldronStates : List Cauldron) :
    Bool :=
  cauldronStates.all (fun c =>
    (preVisitLevels c (eventsForCauldron routes c.id) c.currentLevel 0).all
      (fun l => decide (l ≤ c.maxVolume)))

/-! ## Auxiliary definitions for the claim statements and scenarios -/

/-- Per-stop volume condition of the non-negative-collection claim: nonnegative
everywhere, exactly zero at the market stop, at least the 10-litre worthwhile
minimum at non-market stops. -/
def stopVolumeOk (st : Stop) : Bool :=
  decide (0 ≤ st.volumeCollected) &&
    (if st.isMarket then decide (st.volumeCollected = 0) else decide (10 ≤ st.volumeCollected))

/-- A triangle graph with unit edge costs, used as a concrete instance of the
shortest-walk triangle inequality. -/
def triAdj : Adj := buildAdjacencyMap [⟨1,2,1⟩,⟨2,3,1⟩,⟨1,3,1⟩]

/-- A one-courier, one-trip schedule used as a concrete overflow-verification
scenario. -/
def c1Routes : List CourierRoute :=
  [⟨0, 100, [⟨[⟨1, 10, 5, 50, 10, false, none⟩, ⟨0, 20, 15, 0, 5, true, none⟩], 40, 50, 15⟩]⟩]

/-- The cauldron state matching `c1Routes`. -/
def c1States : List Cauldron := [⟨1, 100, 1000, 1, 50, some 900⟩]

/-- A cauldron at 350 of 1000 litres, reachable over a single edge. -/
def c2Cauldron : Cauldron := ⟨1, 350, 1000, 1, 50, some 650⟩

/-- The one-edge market graph of the trip-builder scenarios. -/
def c2Adj : Adj := buildAdjacencyMap [⟨0,1,5⟩]

/-- A nearly empty cauldron (5 litres of 1000), exhibiting a collection above
the available level. -/
def c3Cauldron : Cauldron := ⟨1, 5, 1000, 1, 50, some 995⟩

/-- The one-edge market graph of the nearly-empty-cauldron scenario. -/
def c3Adj : Adj := buildAdjacencyMap [⟨0,1,5⟩]

/-! ## Lemmas and claim theorems -/

lemma bandB_iff (r : ℚ) : bandB r = true ↔ 1/100 < r ∧ r < 500 := by
  simp [bandB]

lemma filterMap_mkPairEvt (f : ℚ) :
    ∀ l : List (LevelReading × LevelReading),
      (l.filterMap (mkPairEvt f)).map evtData =
        ((l.filter pairValid).map (pairData f)).filter (fun d => bandB d.2.2)
  | [] => rfl
  | p :: l => by
    have ih := filterMap_mkPairEvt f l
    by_cases h1 : (p.2.timestamp - p.1.timestamp) / (1000 * 60) ≤ 0 ∨
        240 < (p.2.timestamp - p.1.timestamp) / (1000 * 60)
    · have hv : pairValid p = false := by
        simp only [pairValid, Bool.and_eq_false_iff]
        rcases h1 with h | h
        · left; left; simpa using not_lt.mpr h
        · left; right; simpa using not_le.mpr h
      have e1 : mkPairEvt f p = none := by
        simp only [mkPairEvt]
        rw [if_pos h1]
      simp [List.filterMap_cons, List.filter_cons, e1, hv, ih]
    · push_neg at h1
      have hgapn : ¬((p.2.timestamp - p.1.timestamp) / (1000 * 60) ≤ 0 ∨
          240 < (p.2.timestamp - p.1.timestamp) / (1000 * 60)) :=
        not_or.mpr ⟨h1.1.not_le, h1.2.not_lt⟩
      by_cases h2 : p.2.level - p.1.level < 0
      · have hv : pairValid p = true := by
          simp only [pairValid, Bool.and_eq_true, decide_eq_true_eq]
          exact ⟨⟨h1.1, h1.2⟩, by linarith⟩
        by_cases h3 : 1/100 < f - (p.2.level - p.1.level) / ((p.2.timestamp - p.1.timestamp) / (1000 * 60)) ∧
            f - (p.2.level - p.1.level) / ((p.2.timestamp - p.1.timestamp) / (1000 * 60)) < 500
        · have e1 : mkPairEvt f p = some
              { timeDiffMinutes := (p.2.timestamp - p.1.timestamp) / (1000 * 60)
                prevLevel := p.1.level
                currLevel := p.2.level
                levelChange := p.2.level - p.1.level
                observedRate := (p.2.level - p.1.level) / ((p.2.timestamp - p.1.timestamp) / (1000 * 60))
                actualDrainRate := f - (p.2.level - p.1.level) / ((p.2.timestamp - p.1.timestamp) / (1000 * 60)) } := by
            simp only [mkPairEvt]
            rw [if_neg hgapn, if_pos h2, if_pos h3]
          have hb : bandB (f - (p.2.level - p.1.level) / ((p.2.timestamp - p.1.timestamp) / (1000 * 60))) = true :=
            (bandB_iff _).mpr h3
          simp [List.filterMap_cons, List.filter_cons, e1, hv, hb, ih, evtData, pairData,
            pairGap, pairDrainRate]
        · have e1 : mkPairEvt f p = none := by
            simp only [mkPairEvt]
            rw [if_neg hgapn, if_pos h2, if_neg h3]
          have hb : bandB (f - (p.2.level - p.1.level) / ((p.2.timestamp - p.1.timestamp) / (1000 * 60))) = false := by
            simp only [bandB, Bool.and_eq_false_iff, decide_eq_false_iff_not]
            rcases not_and_or.mp h3 with h | h
            · left; exact h
            · right; exact h
          simp [List.filterMap_cons, List.filter_cons, e1, hv, hb, ih, pairData,
            pairGap, pairDrainRate]
      · have hv : pairValid p = false := by
          simp only [pairValid, Bool.and_eq_false_iff]
          right
          simp only [decide_eq_false_iff_not, not_lt]
          linarith [not_lt.mp h2]
        have e1 : mkPairEvt f p = none := by
          simp only [mkPairEvt]
          rw [if_neg hgapn, if_neg h2]
        simp [List.filterMap_cons, List.filter_cons, e1, hv, ih]

lemma drainEvents_rates (f : ℚ) :
    ∀ l : List (LevelReading × LevelReading),
      (l.filterMap (mkPairEvt f)).map (fun e => e.actualDrainRate) =
        ((l.filter pairValid).map (pairDrainRate f)).filter bandB := by
  intro l
  have h := filterMap_mkPairEvt f l
  have h2 := congrArg (List.map (fun d : ℚ × ℚ × ℚ => d.2.2)) h
  simpa [List.map_map, Function.comp, evtData, List.filter_map, pairData] using h2

lemma calculateDrainRate_spec (f : ℚ) (rs : List LevelReading) :
    calculateDrainRate f rs =
      (if (specAcceptedDrainRates f rs).isEmpty then 50
       else (specAcceptedDrainRates f rs).sum / ((specAcceptedDrainRates f rs).length : ℚ)) := by
  have hr : (drainEvents f rs).map (fun e => e.actualDrainRate) = specAcceptedDrainRates f rs :=
    drainEvents_rates f (rs.zip rs.tail)
  rw [calculateDrainRate]
  by_cases hlen : rs.length < 2
  · have hz : rs.zip rs.tail = [] := by
      match rs, hlen with
      | [], _ => rfl
      | [a], _ => rfl
    have : specAcceptedDrainRates f rs = [] := by
      simp [specAcceptedDrainRates, hz]
    simp [hlen, this]
  · rw [if_neg hlen]
    by_cases he : (drainEvents f rs).isEmpty
    · have h0 : drainEvents f rs = [] := by simpa [List.isEmpty_iff] using he
      have : specAcceptedDrainRates f rs = [] := by
        rw [← hr, h0]; rfl
      simp [he, h0, this]
    · have h1 : ¬(specAcceptedDrainRates f rs).isEmpty := by
        rw [← hr]
        simpa [List.isEmpty_iff, List.map_eq_nil_iff] using he
      rw [if_neg (by simpa using he), if_neg (by simpa using h1), ← hr]
      simp [List.length_map]

/-- Claim C7: for every reservoir, the estimated drain rate equals the
arithmetic mean, over all accepted drain events, of `fillRate − observedRate`
(with `observedRate = Δvolume/Δt` for the event), an event being accepted
exactly when that value lies in the plausible positive band `(0.01, 500)`;
when no event is accepted the estimate is the configured default rate 50. -/
theorem c7_mean_rate (cauldrons : List CauldronInput) (allLevels : List LevelEntry) :
    calculateDrainRatesFromHistory cauldrons allLevels =
      cauldrons.map (fun c =>
        (c.id,
          if (specAcceptedDrainRates c.fillRate (readingsFor c.id allLevels)).isEmpty then 50
          else (specAcceptedDrainRates c.fillRate (readingsFor c.id allLevels)).sum /
            ((specAcceptedDrainRates c.fillRate (readingsFor c.id allLevels)).length : ℚ))) := by
  unfold calculateDrainRatesFromHistory
  refine List.map_congr_left (fun c _ => ?_)
  rw [calculateDrainRate_spec]

/-- Claim C6 (amended): each DrainEvent produced by the estimator corresponds
to one single consecutive reading pair with strictly decreasing volume, a
positive time gap of at most the 240-minute sanity ceiling, and an implied
drain rate in the plausible band; its drop is that one pair's decrease.  A
maximal run of k consecutive decreases yields up to k separate events — no
aggregation over maximal runs takes place (pairs with invalid gaps are
discarded, as the claim states). -/
theorem c6_per_pair (fillRate : ℚ) (rs : List LevelReading) :
    (drainEvents fillRate rs).map evtData = perPairAcceptedEvents fillRate rs :=
  filterMap_mkPairEvt fillRate (rs.zip rs.tail)

/-- Counterexample to claim C6 as stated: three readings forming one maximal
strictly-decreasing run of total drop 20 produce two separate events of drop
10 each, not one aggregated event of drop 20. -/
theorem c6_counterexample :
    (drainEvents 0 [⟨0,100⟩, ⟨600000,90⟩, ⟨1200000,80⟩]).map (fun e => -e.levelChange)
      = [10, 10] ∧
    specRunDrops [⟨0,100⟩, ⟨600000,90⟩, ⟨1200000,80⟩] = [20] := by
  constructor <;> with_unfolding_all rfl

lemma fnccFold_some (cc mc : ℚ) (first : Bool) (R : Candidate → Prop) :
    ∀ (l : List Candidate) (acc : Option (ℚ × Candidate)),
      (∀ q, acc = some q → R q.2) →
      (∀ cand, cand ∈ l → fnccReject cand cc mc first = false → R cand) →
      ∀ q, l.foldl (fnccStep cc mc first) acc = some q → R q.2
  | [], acc, hacc, _, q, hq => hacc q hq
  | cand :: l, acc, hacc, hl, q, hq => by
    refine fnccFold_some cc mc first R l (fnccStep cc mc first acc cand) ?_
      (fun x hx hrej => hl x (List.mem_cons_of_mem _ hx) hrej) q hq
    intro q2 hq2
    by_cases hrej : fnccReject cand cc mc first
    · rw [fnccStep, if_pos hrej] at hq2
      exact hacc q2 hq2
    · have hcand : R cand := hl cand (List.mem_cons_self _ _) (by simpa using hrej)
      rw [fnccStep, if_neg (by simpa using hrej)] at hq2
      rcases acc with _ | best
      · dsimp only at hq2
        simp only [Option.some.injEq] at hq2
        rw [← hq2]
        exact hcand
      · dsimp only at hq2
        by_cases hlt : best.1 < fnccScore cand cc mc first
        · rw [if_pos hlt] at hq2
          simp only [Option.some.injEq] at hq2
          rw [← hq2]
          exact hcand
        · rw [if_neg hlt] at hq2
          simp only [Option.some.injEq] at hq2
          rw [← hq2]
          exact hacc best rfl

lemma fncc_spec (cur : ℕ) (unv : List Cauldron) (t : ℚ) (adj : Adj) (cc mc : ℚ)
    (first : Bool) (cand : Candidate)
    (h : findNextCriticalCauldron cur unv t adj cc mc first = some cand) :
    (∃ r, r ∈ getReachableCauldrons cur unv adj ∧ cand = candidateOf t mc r) ∧
      fnccReject cand cc mc first = false := by
  rw [findNextCriticalCauldron] at h
  obtain ⟨q, hq, hq2⟩ := Option.map_eq_some'.mp h
  have hmain := fnccFold_some cc mc first
    (fun x => (∃ r, r ∈ getReachableCauldrons cur unv adj ∧ x = candidateOf t mc r) ∧
      fnccReject x cc mc first = false)
    ((getReachableCauldrons cur unv adj).map (candidateOf t mc)) none
    (fun q2 hq2 => by simp at hq2)
    (fun x hx hrej =>
      ⟨(List.mem_map.mp hx).imp (fun r hr => ⟨hr.1, hr.2.symm⟩), hrej⟩)
    q hq
  rw [← hq2]
  exact hmain

lemma ten_le_calculateDrainVolume (c : Cauldron) (lvl dt mc : ℚ) :
    10 ≤ calculateDrainVolume c lvl dt mc :=
  le_max_left _ _

lemma fncc_volume (cur : ℕ) (unv : List Cauldron) (t : ℚ) (adj : Adj) (cc mc : ℚ)
    (first : Bool) (cand : Candidate)
    (h : findNextCriticalCauldron cur unv t adj cc mc first = some cand) :
    10 ≤ cand.volumeToCollect := by
  obtain ⟨⟨r, _, hc⟩, _⟩ := fncc_spec cur unv t adj cc mc first cand h
  rw [hc]
  simp only [candidateOf]
  exact ten_le_calculateDrainVolume _ _ _ _

lemma fncc_capacity (cur : ℕ) (unv : List Cauldron) (t : ℚ) (adj : Adj) (cc mc : ℚ)
    (first : Bool) (cand : Candidate)
    (h : findNextCriticalCauldron cur unv t adj cc mc first = some cand) :
    (first = true → cand.volumeToCollect ≤ mc) ∧
    (first = false → cc + cand.volumeToCollect ≤ mc) := by
  obtain ⟨_, hrej⟩ := fncc_spec cur unv t adj cc mc first cand h
  constructor
  · intro hf
    rw [hf, fnccReject, if_pos rfl] at hrej
    simpa [not_lt] using hrej
  · intro hf
    rw [hf, fnccReject, if_neg Bool.false_ne_true] at hrej
    have h2 := (Bool.or_eq_false_iff.mp hrej).2
    simpa [not_lt] using h2

lemma fncc_mem (cur : ℕ) (unv : List Cauldron) (t : ℚ) (adj : Adj) (cc mc : ℚ)
    (first : Bool) (cand : Candidate)
    (h : findNextCriticalCauldron cur unv t adj cc mc first = some cand) :
    cand.id ∈ idsOf unv := by
  obtain ⟨⟨r, hr, hc⟩, _⟩ := fncc_spec cur unv t adj cc mc first cand h
  rw [getReachableCauldrons] at hr
  obtain ⟨c, hcu, hgc⟩ := List.mem_filterMap.mp hr
  dsimp only at hgc
  have hrc : r.toCauldron = c := by
    rcases hd : (dijkstra adj cur c.id).dist with _ | d
    · rw [hd] at hgc
      simp at hgc
    · rcases hp : (dijkstra adj cur c.id).path with _ | p
      · rw [hd, hp] at hgc
        simp at hgc
      · rw [hd, hp] at hgc
        simp only [Option.some.injEq] at hgc
        rw [← hgc]
  have hid : cand.id = c.id := by
    rw [hc]
    show (candidateOf t mc r).toCauldron.id = c.id
    simp only [candidateOf]
    rw [hrc]
  rw [idsOf, hid]
  exact List.mem_map.mpr ⟨c, hcu, rfl⟩

lemma sumVolumes_append (l : List Stop) (st : Stop) :
    sumVolumes (l ++ [st]) = sumVolumes l + st.volumeCollected := by
  simp [sumVolumes]

lemma bsrCommit_currentCapacity (s : BSRState) (cand : Candidate) :
    (bsrCommit s cand).currentCapacity = s.currentCapacity + cand.volumeToCollect := rfl

lemma bsrCommit_stops (s : BSRState) (cand : Candidate) :
    (bsrCommit s cand).stops = s.stops ++ [mkStop cand] := rfl

lemma bsrCommit_isFirstStop (s : BSRState) (cand : Candidate) :
    (bsrCommit s cand).isFirstStop = false := rfl

lemma bsrLoop_capacity (adj : Adj) (cap : ℚ) :
    ∀ (fuel : ℕ) (s : BSRState),
      s.currentCapacity = sumVolumes s.stops →
      s.currentCapacity ≤ cap →
      (s.isFirstStop = true → s.currentCapacity = 0) →
      (bsrLoop adj cap fuel s).currentCapacity = sumVolumes (bsrLoop adj cap fuel s).stops ∧
        (bsrLoop adj cap fuel s).currentCapacity ≤ cap
  | 0, s, h1, h2, _ => ⟨h1, h2⟩
  | fuel+1, s, h1, h2, h3 => by
    rw [bsrLoop]
    by_cases hre : s.remaining.isEmpty = true
    · rw [if_pos hre]
      exact ⟨h1, h2⟩
    · rw [if_neg hre]
      rcases hf : findNextCriticalCauldron s.currentNode s.remaining s.currentTime adj
          s.currentCapacity cap s.isFirstStop with _ | cand
      · exact ⟨h1, h2⟩
      · dsimp only
        have hv1 : (bsrCommit s cand).currentCapacity =
            sumVolumes (bsrCommit s cand).stops := by
          rw [bsrCommit_currentCapacity, bsrCommit_stops, sumVolumes_append, h1]
          rfl
        have hv2 : (bsrCommit s cand).currentCapacity ≤ cap := by
          rw [bsrCommit_currentCapacity]
          rcases hfs : s.isFirstStop with _ | _
          · have := (fncc_capacity _ _ _ _ _ _ _ _ (hfs ▸ hf)).2 rfl
            linarith
          · have hv := (fncc_capacity _ _ _ _ _ _ _ _ (hfs ▸ hf)).1 rfl
            have h0 := h3 hfs
            rw [h0]
            linarith
        by_cases hc1 : cap ≤ (bsrCommit s cand).currentCapacity
        · rw [if_pos hc1]
          exact ⟨hv1, hv2⟩
        · rw [if_neg hc1]
          by_cases hc2 : (120:ℚ) ≤ (bsrCommit s cand).currentTime
          · rw [if_pos hc2]
            exact ⟨hv1, hv2⟩
          · rw [if_neg hc2]
            exact bsrLoop_capacity adj cap fuel (bsrCommit s cand) hv1 hv2
              (fun hk => absurd hk (by rw [bsrCommit_isFirstStop]; exact Bool.false_ne_true))

lemma idsOf_updateFirstLevel (i : ℕ) (lv : ℚ) :
    ∀ l : List Cauldron, idsOf (updateFirstLevel l i lv) = idsOf l
  | [] => rfl
  | c :: cs => by
    rw [updateFirstLevel]
    by_cases h : c.id = i
    · rw [if_pos h]
      rfl
    · rw [if_neg h]
      show c.id :: idsOf (updateFirstLevel cs i lv) = c.id :: idsOf cs
      rw [idsOf_updateFirstLevel i lv cs]

lemma mem_idsOf_removeFirstId {x : ℕ} (i : ℕ) :
    ∀ l : List Cauldron, x ∈ idsOf (removeFirstId l i) → x ∈ idsOf l
  | [] => fun h => h
  | c :: cs => by
    rw [removeFirstId]
    by_cases h : c.id = i
    · rw [if_pos h]
      intro hx
      exact List.mem_cons.mpr (Or.inr hx)
    · rw [if_neg h]
      intro hx
      rcases List.mem_cons.mp hx with h1 | h1
      · exact List.mem_cons.mpr (Or.inl h1)
      · exact List.mem_cons.mpr (Or.inr (mem_idsOf_removeFirstId i cs h1))

lemma bsrCommit_pool_ids (s : BSRState) (cand : Candidate) :
    idsOf (bsrCommit s cand).pool = idsOf s.pool := by
  rw [bsrCommit]
  rcases hfind : s.remaining.find? (fun c => decide (c.id = cand.id)) with _ | cd <;>
    simp only [hfind]
  by_cases hp : jsPctLt50 (cd.currentLevel - cand.volumeToCollect) cd.maxVolume = true
  · rw [if_pos hp]
    exact idsOf_updateFirstLevel _ _ _
  · rw [if_neg hp]
    exact idsOf_updateFirstLevel _ _ _

lemma bsrCommit_remaining_subset (s : BSRState) (cand : Candidate) {x : ℕ}
    (hx : x ∈ idsOf (bsrCommit s cand).remaining) : x ∈ idsOf s.remaining := by
  rw [bsrCommit] at hx
  rcases hfind : s.remaining.find? (fun c => decide (c.id = cand.id)) with _ | cd <;>
    simp only [hfind] at hx
  · exact hx
  · by_cases hp : jsPctLt50 (cd.currentLevel - cand.volumeToCollect) cd.maxVolume = true
    · rw [if_pos hp] at hx
      have h2 := mem_idsOf_removeFirstId _ _ hx
      rw [idsOf_updateFirstLevel] at h2
      exact h2
    · rw [if_neg hp] at hx
      rw [show (updateFirstLevel s.remaining cand.id (cd.currentLevel - cand.volumeToCollect),
          updateFirstLevel s.pool cand.id (cd.currentLevel - cand.volumeToCollect),
          false).1 = updateFirstLevel s.remaining cand.id
          (cd.currentLevel - cand.volumeToCollect) from rfl,
        idsOf_updateFirstLevel] at hx
      exact hx

lemma bsrLoop_stops_ok (adj : Adj) (cap : ℚ) :
    ∀ (fuel : ℕ) (s : BSRState),
      (∀ st ∈ s.stops, st.isMarket = false ∧ 10 ≤ st.volumeCollected) →
      ∀ st ∈ (bsrLoop adj cap fuel s).stops,
        st.isMarket = false ∧ 10 ≤ st.volumeCollected
  | 0, s, h => h
  | fuel+1, s, h => by
    rw [bsrLoop]
    by_cases hre : s.remaining.isEmpty = true
    · rw [if_pos hre]
      exact h
    · rw [if_neg hre]
      rcases hf : findNextCriticalCauldron s.currentNode s.remaining s.currentTime adj
          s.currentCapacity cap s.isFirstStop with _ | cand
      · exact h
      · dsimp only
        have hstep : ∀ st ∈ (bsrCommit s cand).stops,
            st.isMarket = false ∧ 10 ≤ st.volumeCollected := by
          rw [bsrCommit_stops]
          intro st hst
          rcases List.mem_append.mp hst with h1 | h1
          · exact h st h1
          · rcases List.mem_singleton.mp h1 with rfl
            exact ⟨rfl, fncc_volume _ _ _ _ _ _ _ _ hf⟩
        by_cases hc1 : cap ≤ (bsrCommit s cand).currentCapacity
        · rw [if_pos hc1]
          exact hstep
        · rw [if_neg hc1]
          by_cases hc2 : (120:ℚ) ≤ (bsrCommit s cand).currentTime
          · rw [if_pos hc2]
            exact hstep
          · rw [if_neg hc2]
            exact bsrLoop_stops_ok adj cap fuel (bsrCommit s cand) hstep

lemma bsrLoop_ids (adj : Adj) (cap : ℚ) (S : ℕ → Prop) :
    ∀ (fuel : ℕ) (s : BSRState),
      (∀ i ∈ idsOf s.remaining, S i) →
      (∀ st ∈ s.stops, S st.cauldronId) →
      (∀ st ∈ (bsrLoop adj cap fuel s).stops, S st.cauldronId) ∧
        idsOf (bsrLoop adj cap fuel s).pool = idsOf s.pool
  | 0, s, _, h2 => ⟨h2, rfl⟩
  | fuel+1, s, h1, h2 => by
    rw [bsrLoop]
    by_cases hre : s.remaining.isEmpty = true
    · rw [if_pos hre]
      exact ⟨h2, rfl⟩
    · rw [if_neg hre]
      rcases hf : findNextCriticalCauldron s.currentNode s.remaining s.currentTime adj
          s.currentCapacity cap s.isFirstStop with _ | cand
      · exact ⟨h2, rfl⟩
      · dsimp only
        have hr1 : ∀ i ∈ idsOf (bsrCommit s cand).remaining, S i :=
          fun i hi => h1 i (bsrCommit_remaining_subset s cand hi)
        have hr2 : ∀ st ∈ (bsrCommit s cand).stops, S st.cauldronId := by
          rw [bsrCommit_stops]
          intro st hst
          rcases List.mem_append.mp hst with hm | hm
          · exact h2 st hm
          · rcases List.mem_singleton.mp hm with rfl
            exact h1 _ (fncc_mem _ _ _ _ _ _ _ _ hf)
        by_cases hc1 : cap ≤ (bsrCommit s cand).currentCapacity
        · rw [if_pos hc1]
          exact ⟨hr2, bsrCommit_pool_ids s cand⟩
        · rw [if_neg hc1]
          by_cases hc2 : (120:ℚ) ≤ (bsrCommit s cand).currentTime
          · rw [if_pos hc2]
            exact ⟨hr2, bsrCommit_pool_ids s cand⟩
          · rw [if_neg hc2]
            have hrec := bsrLoop_ids adj cap S fuel (bsrCommit s cand) hr1 hr2
            exact ⟨hrec.1, hrec.2.trans (bsrCommit_pool_ids s cand)⟩

/-- Claim C9: in every trip produced by the trip builder, each stop's
`volumeCollected` is nonnegative, the closing market stop collects exactly 0,
and every non-market stop collects at least the configured 10-litre worthwhile
minimum. -/
theorem c9_nonneg_collection (marketId : ℕ) (unvisited : List Cauldron) (adjacency : Adj)
    (courierCapacity startTime : ℚ) :
    ((buildSingleRoute marketId unvisited adjacency courierCapacity startTime).1.stops.all
      stopVolumeOk) = true := by
  have hmain := bsrLoop_stops_ok adjacency courierCapacity 10
    { stops := [], totalDistance := 0, fullyServiced := [], currentNode := marketId,
      currentTime := startTime, currentCapacity := 0, isFirstStop := true,
      remaining := unvisited, pool := unvisited }
    (fun st hst => absurd hst (List.not_mem_nil st))
  simp only [buildSingleRoute]
  by_cases hse : (bsrLoop adjacency courierCapacity 10
      { stops := [], totalDistance := 0, fullyServiced := [], currentNode := marketId,
        currentTime := startTime, currentCapacity := 0, isFirstStop := true,
        remaining := unvisited, pool := unvisited }).stops.isEmpty = true
  · rw [if_pos hse]
    rfl
  · rw [if_neg hse]
    rw [List.all_eq_true]
    intro st hst
    rcases List.mem_append.mp hst with hm | hm
    · obtain ⟨h1, h2⟩ := hmain st hm
      simp [stopVolumeOk, h1, h2]
      linarith
    · rcases List.mem_singleton.mp hm with rfl
      simp [stopVolumeOk]

/-- Claim C2 (amended): for every trip produced by the trip builder with a
nonnegative courier capacity, the sum of `volumeCollected` over the trip's
stops is at most that capacity, for any candidate set, graph and start time.
(As stated, over arbitrary capacities, the claim fails at a negative capacity:
see the counterexample.) -/
theorem c2_capacity_amended (marketId : ℕ) (unvisited : List Cauldron) (adjacency : Adj)
    (courierCapacity startTime : ℚ) (hcap : 0 ≤ courierCapacity) :
    sumVolumes
        (buildSingleRoute marketId unvisited adjacency courierCapacity startTime).1.stops
      ≤ courierCapacity := by
  have hmain := bsrLoop_capacity adjacency courierCapacity 10
    { stops := [], totalDistance := 0, fullyServiced := [], currentNode := marketId,
      currentTime := startTime, currentCapacity := 0, isFirstStop := true,
      remaining := unvisited, pool := unvisited }
    (by simp [sumVolumes]) hcap (fun _ => rfl)
  have h2 : sumVolumes (bsrLoop adjacency courierCapacity 10
      { stops := [], totalDistance := 0, fullyServiced := [], currentNode := marketId,
        currentTime := startTime, currentCapacity := 0, isFirstStop := true,
        remaining := unvisited, pool := unvisited }).stops ≤ courierCapacity :=
    hmain.1 ▸ hmain.2
  simp only [buildSingleRoute]
  by_cases hse : (bsrLoop adjacency courierCapacity 10
      { stops := [], totalDistance := 0, fullyServiced := [], currentNode := marketId,
        currentTime := startTime, currentCapacity := 0, isFirstStop := true,
        remaining := unvisited, pool := unvisited }).stops.isEmpty = true
  · rw [if_pos hse]
    simpa [sumVolumes] using hcap
  · rw [if_neg hse]
    dsimp only
    simpa [sumVolumes_append] using h2

lemma buildSingleRoute_ids (marketId : ℕ) (unvisited : List Cauldron) (adjacency : Adj)
    (courierCapacity startTime : ℚ) (S : ℕ → Prop)
    (hS : ∀ i ∈ idsOf unvisited, S i) (hm : S marketId) :
    (∀ st ∈ (buildSingleRoute marketId unvisited adjacency courierCapacity startTime).1.stops,
      S st.cauldronId) ∧
    idsOf (buildSingleRoute marketId unvisited adjacency courierCapacity startTime).2.2 =
      idsOf unvisited := by
  have hmain := bsrLoop_ids adjacency courierCapacity S 10
    { stops := [], totalDistance := 0, fullyServiced := [], currentNode := marketId,
      currentTime := startTime, currentCapacity := 0, isFirstStop := true,
      remaining := unvisited, pool := unvisited }
    hS (fun st hst => absurd hst (List.not_mem_nil st))
  simp only [buildSingleRoute]
  by_cases hse : (bsrLoop adjacency courierCapacity 10
      { stops := [], totalDistance := 0, fullyServiced := [], currentNode := marketId,
        currentTime := startTime, currentCapacity := 0, isFirstStop := true,
        remaining := unvisited, pool := unvisited }).stops.isEmpty = true
  · rw [if_pos hse]
    exact ⟨fun st hst => absurd hst (List.not_mem_nil st), hmain.2⟩
  · rw [if_neg hse]
    dsimp only
    refine ⟨fun st hst => ?_, hmain.2⟩
    rcases List.mem_append.mp hst with h1 | h1
    · exact hmain.1 st h1
    · rcases List.mem_singleton.mp h1 with rfl
      exact hm

lemma foldl_removeFirstId_subset {x : ℕ} :
    ∀ (ids : List ℕ) (l : List Cauldron),
      x ∈ idsOf (ids.foldl (fun acc cid => removeFirstId acc cid) l) → x ∈ idsOf l
  | [], _, h => h
  | i :: ids, l, h =>
    mem_idsOf_removeFirstId i l (foldl_removeFirstId_subset ids (removeFirstId l i) h)

lemma mem_idsOf_filter {x : ℕ} (p : Cauldron → Bool) :
    ∀ l : List Cauldron, x ∈ idsOf (l.filter p) → x ∈ idsOf l := by
  intro l h
  rw [idsOf] at h
  obtain ⟨c, hc, hcx⟩ := List.mem_map.mp h
  exact List.mem_map.mpr ⟨c, List.mem_of_mem_filter hc, hcx⟩

lemma addTrip_mem (routes : List CourierRoute) (wIdx : ℕ) (cap : ℚ) (trip : Route) :
    ∀ w ∈ addTrip routes wIdx cap trip, ∀ t ∈ w.trips,
      (∃ w0, w0 ∈ routes ∧ t ∈ w0.trips) ∨ t = trip := by
  intro w hw t ht
  rw [addTrip] at hw
  by_cases hex : routes.any (fun r => decide (r.witchId = wIdx)) = true
  · rw [if_pos hex] at hw
    obtain ⟨w0, hw0, hww⟩ := List.mem_map.mp hw
    by_cases hid : w0.witchId = wIdx
    · rw [if_pos hid] at hww
      rw [← hww] at ht
      rcases List.mem_append.mp ht with h1 | h1
      · exact Or.inl ⟨w0, hw0, h1⟩
      · exact Or.inr (List.mem_singleton.mp h1)
    · rw [if_neg hid] at hww
      rw [← hww] at ht
      exact Or.inl ⟨w0, hw0, ht⟩
  · rw [if_neg hex] at hw
    rcases List.mem_append.mp hw with h1 | h1
    · exact Or.inl ⟨w, h1, ht⟩
    · rcases List.mem_singleton.mp h1 with rfl
      exact Or.inr (List.mem_singleton.mp ht)

lemma orLoop_stops (marketId : ℕ) (adjacency : Adj) (courierCapacity : ℚ)
    (S : ℕ → Prop) (hm : S marketId) :
    ∀ (fuel : ℕ) (s : ORState),
      (∀ i ∈ idsOf s.unvisited, S i) →
      (∀ w ∈ s.routes, ∀ t ∈ w.trips, ∀ st ∈ t.stops, S st.cauldronId) →
      (∀ w ∈ (orLoop marketId adjacency courierCapacity fuel s).routes,
        ∀ t ∈ w.trips, ∀ st ∈ t.stops, S st.cauldronId)
  | 0, s, _, h2 => h2
  | fuel+1, s, h1, h2 => by
    rw [orLoop]
    by_cases he1 : s.unvisited.isEmpty = true
    · rw [if_pos he1]
      exact h2
    · rw [if_neg he1]
      by_cases he2 : 200 ≤ s.totalTrips
      · rw [if_pos he2]
        exact h2
      · rw [if_neg he2]
        dsimp only
        have hbs := buildSingleRoute_ids marketId s.unvisited adjacency courierCapacity 0
          S h1 hm
        by_cases he3 : (buildSingleRoute marketId s.unvisited adjacency
            courierCapacity 0).2.1.isEmpty = true ∧
            ((buildSingleRoute marketId s.unvisited adjacency
              courierCapacity 0).1.stops.filter (fun st => !st.isMarket)).isEmpty = true
        · rw [if_pos he3]
          exact h2
        · rw [if_neg he3]
          refine orLoop_stops marketId adjacency courierCapacity S hm fuel _ ?_ ?_
          · intro i hi
            dsimp only at hi
            have hi2 := foldl_removeFirstId_subset _ _ hi
            have hi3 := foldl_removeFirstId_subset _ _ hi2
            rw [hbs.2] at hi3
            exact h1 i hi3
          · intro w hw t ht st hst
            dsimp only at hw
            rcases addTrip_mem s.routes s.witchIndex courierCapacity _ w hw t ht with
              ⟨w0, hw0, ht0⟩ | rfl
            · exact h2 w0 hw0 t ht0 st hst
            · exact hbs.1 st hst

lemma scanMin_stable (m : ℕ) :
    ∀ l : List ℕ,
      l.foldl (fun acc n =>
        if optLtB ((fun k => if k = m then some 0 else none) n) acc.2
        then (some n, (fun k => if k = m then some 0 else none) n) else acc)
        ((some m : Option ℕ), (some 0 : Option ℚ)) = (some m, some 0)
  | [] => rfl
  | n :: l => by
    have hstep : (if optLtB ((fun k => if k = m then some 0 else none) n)
        ((some m, (some 0 : Option ℚ)) : Option ℕ × Option ℚ).2
        then (some n, (fun k => if k = m then some 0 else none) n)
        else ((some m : Option ℕ), (some 0 : Option ℚ))) = (some m, some 0) := by
      by_cases h : n = m
      · rw [if_neg]
        dsimp only
        rw [if_pos h]
        simp [optLtB]
      · rw [if_neg]
        dsimp only
        rw [if_neg h]
        simp [optLtB]
    rw [List.foldl_cons, hstep]
    exact scanMin_stable m l

lemma scanMin_start (m : ℕ) :
    ∀ l : List ℕ, m ∈ l →
      scanMin (fun n => if n = m then some 0 else none) l = some m := by
  intro l hl
  rw [scanMin]
  suffices h : ∀ l : List ℕ, m ∈ l →
      l.foldl (fun acc n =>
        if optLtB ((fun k => if k = m then some 0 else none) n) acc.2
        then (some n, (fun k => if k = m then some 0 else none) n) else acc)
        ((none : Option ℕ), (none : Option ℚ)) = (some m, some 0) by
    rw [h l hl]
  intro l
  induction l with
  | nil => intro h; exact absurd h (List.not_mem_nil m)
  | cons n l ih =>
    intro hm
    rw [List.foldl_cons]
    by_cases h : n = m
    · have hstep : (if optLtB ((fun k => if k = m then some 0 else none) n)
          (((none : Option ℕ), (none : Option ℚ)) : Option ℕ × Option ℚ).2
          then (some n, (fun k => if k = m then some 0 else none) n)
          else ((none : Option ℕ), (none : Option ℚ))) = (some m, some 0) := by
        dsimp only
        rw [if_pos h, h]
        simp [optLtB]
      rw [hstep]
      exact scanMin_stable m l
    · have hstep : (if optLtB ((fun k => if k = m then some 0 else none) n)
          (((none : Option ℕ), (none : Option ℚ)) : Option ℕ × Option ℚ).2
          then (some n, (fun k => if k = m then some 0 else none) n)
          else ((none : Option ℕ), (none : Option ℚ))) = (none, none) := by
        dsimp only
        rw [if_neg h]
        simp [optLtB]
      rw [hstep]
      exact ih ((List.mem_cons.mp hm).resolve_left (fun he => h he.symm))

lemma dijkstra_self (adj : Adj) (m : ℕ) (h : adjHasKey adj m = true) :
    (dijkstra adj m m).dist = some 0 := by
  have hmem : m ∈ adjKeys adj := by
    rw [adjHasKey, List.any_eq_true] at h
    obtain ⟨kv, hkv, hdec⟩ := h
    rw [adjKeys]
    exact List.mem_map.mpr ⟨kv, hkv, of_decide_eq_true hdec⟩
  rw [dijkstra]
  dsimp only
  rcases hk : adjKeys adj with _ | ⟨a, rest⟩
  · rw [hk] at hmem
    exact absurd hmem (List.not_mem_nil m)
  · rw [hk] at hmem
    rw [List.length_cons, dijkstraRun]
    rw [if_neg (by simp)]
    rw [scanMin_start m (a :: rest) hmem]
    dsimp only
    rw [if_pos rfl]
    dsimp only
    rw [if_pos rfl]

lemma mem_insertLeB {α : Type} {x e : α} (le : α → α → Bool) :
    ∀ l : List α, x ∈ insertLeB le e l → x = e ∨ x ∈ l
  | [] => fun h => Or.inl (List.mem_singleton.mp h)
  | a :: l => by
    rw [insertLeB]
    by_cases h : le a e = true
    · rw [if_pos h]
      intro hx
      rcases List.mem_cons.mp hx with h1 | h1
      · exact Or.inr (List.mem_cons.mpr (Or.inl h1))
      · rcases mem_insertLeB le l h1 with h2 | h2
        · exact Or.inl h2
        · exact Or.inr (List.mem_cons.mpr (Or.inr h2))
    · rw [if_neg h]
      intro hx
      rcases List.mem_cons.mp hx with h1 | h1
      · exact Or.inl h1
      · exact Or.inr h1

lemma mem_sortLeB {α : Type} {x : α} (le : α → α → Bool) :
    ∀ l : List α, x ∈ sortLeB le l → x ∈ l
  | [] => fun h => h
  | a :: l => by
    rw [sortLeB, List.foldr_cons]
    intro hx
    rcases mem_insertLeB le _ hx with h1 | h1
    · rw [h1]
      exact List.mem_cons_self _ _
    · exact List.mem_cons.mpr (Or.inr (mem_sortLeB le l h1))

lemma optimizeRoutes_avoids (cauldrons : List CauldronInput) (levels : List LevelEntry)
    (marketId : ℕ) (edges : List Edge) (couriers : List Courier)
    (allLevels : List LevelEntry) (x : ℕ)
    (hx : (dijkstra (buildAdjacencyMap edges) marketId x).dist = none) :
    ∀ w ∈ (optimizeRoutes cauldrons levels marketId edges couriers allLevels).elim []
        (fun r => r.routes),
      ∀ t ∈ w.trips, ∀ st ∈ t.stops, st.cauldronId ≠ x := by
  intro w hw t ht st hst
  simp only [optimizeRoutes] at hw
  by_cases hkey : adjHasKey (buildAdjacencyMap edges) marketId = true
  · rw [if_pos hkey] at hw
    by_cases hre : ((calculateOverflowTimes cauldrons levels
        (calculateDrainRatesFromHistory cauldrons allLevels)).filter
        (reachableFromMarket (buildAdjacencyMap edges) marketId)).isEmpty = true
    · rw [if_pos hre] at hw
      exact absurd hw (List.not_mem_nil w)
    · rw [if_neg hre] at hw
      rw [Option.elim_some] at hw
      rw [assembleResult] at hw
      dsimp only at hw
      have hS := orLoop_stops marketId (buildAdjacencyMap edges)
        (courierCapacityOf couriers)
        (fun i => (dijkstra (buildAdjacencyMap edges) marketId i).dist ≠ none)
        (by show (dijkstra (buildAdjacencyMap edges) marketId marketId).dist ≠ none
            rw [dijkstra_self (buildAdjacencyMap edges) marketId hkey]
            simp)
        200 _ ?_ (fun w hw => absurd hw (List.not_mem_nil w)) w hw t ht st hst
      · intro he
        rw [he] at hS
        exact hS hx
      · intro i hi
        rw [idsOf] at hi
        obtain ⟨c, hc, hci⟩ := List.mem_map.mp hi
        have hc2 := mem_sortLeB _ _ hc
        have hc3 := List.mem_filter.mp hc2
        have hp := hc3.2
        rw [reachableFromMarket, Bool.and_eq_true] at hp
        have hp2 := hp.2
        rw [Bool.not_eq_true', decide_eq_false_iff_not] at hp2
        rw [← hci]
        exact hp2
  · rw [if_neg hkey] at hw
    exact absurd hw (List.not_mem_nil w)

lemma simIssues_nil_bound (c : Cauldron) :
    ∀ (evs : List SimEvent) (level time : ℚ),
      simIssues c evs level time = [] →
      (preVisitLevels c evs level time).all (fun l => decide (l ≤ c.maxVolume)) = true
  | [], _, _, _ => rfl
  | e :: rest, level, time, h => by
    rw [simIssues] at h
    rw [List.append_eq_nil] at h
    obtain ⟨h12, h3⟩ := h
    rw [List.append_eq_nil] at h12
    obtain ⟨h1, h2⟩ := h12
    have hle : level + c.fillRate * (e.time - time) ≤ c.maxVolume := by
      by_cases hlt : c.maxVolume < level + c.fillRate * (e.time - time)
      · rw [if_pos hlt] at h1
        exact absurd h1 (by simp)
      · exact not_lt.mp hlt
    rw [preVisitLevels]
    rw [List.all_cons]
    rw [Bool.and_eq_true]
    exact ⟨decide_eq_true hle, simIssues_nil_bound c rest _ _ h3⟩

lemma flatMap_isEmpty_forall {α β : Type} (f : α → List β) :
    ∀ l : List α, (l.flatMap f).isEmpty = true → ∀ a ∈ l, f a = []
  | [], _, a, ha => absurd ha (List.not_mem_nil a)
  | b :: l, h, a, ha => by
    rw [List.flatMap_cons, List.isEmpty_iff, List.append_eq_nil] at h
    rcases List.mem_cons.mp ha with h1 | h1
    · rw [h1]
      exact h.1
    · exact flatMap_isEmpty_forall f l (by rw [List.isEmpty_iff]; exact h.2) a h1

/-- Claim C1: if the overflow verifier reports no overflow (returns `true`)
for a schedule, then for every reservoir, replaying the schedule's drain
events in time order against the reservoir's fill rate and starting level
never produces a pre-visit level strictly exceeding `maxVolume` at any
scheduled visit. -/
theorem c1_overflow_free (routes : List CourierRoute) (cauldronStates : List Cauldron)
    (h : verifyNoOverflows routes cauldronStates = true) :
    statesPreVisitOk routes cauldronStates = true := by
  rw [verifyNoOverflows] at h
  rw [statesPreVisitOk, List.all_eq_true]
  intro c hc
  have hiss := flatMap_isEmpty_forall _ _ h c hc
  rw [cauldronIssues] at hiss
  by_cases he : ((sortLeB (fun a b => decide (a.time ≤ b.time))
      (collectDrainEvents routes)).filter
      (fun e => decide (e.cauldronId = c.id))).isEmpty = true
  · have hnil : (sortLeB (fun a b => decide (a.time ≤ b.time))
        (collectDrainEvents routes)).filter (fun e => decide (e.cauldronId = c.id)) = [] :=
      List.isEmpty_iff.mp he
    show ((preVisitLevels c (eventsForCauldron routes c.id) c.currentLevel 0).all
      (fun l => decide (l ≤ c.maxVolume))) = true
    rw [eventsForCauldron, hnil]
    rfl
  · rw [if_neg he] at hiss
    show ((preVisitLevels c (eventsForCauldron routes c.id) c.currentLevel 0).all
      (fun l => decide (l ≤ c.maxVolume))) = true
    rw [eventsForCauldron]
    exact simIssues_nil_bound c _ _ _ hiss

lemma walkCost_append {adj : Adj} {a b c : ℕ} {x y : ℚ}
    (hab : WalkCost adj a b x) : WalkCost adj b c y → WalkCost adj a c (x + y) := by
  induction hab with
  | nil a =>
    intro hbc
    rw [zero_add]
    exact hbc
  | cons hmem rest ih =>
    intro hbc
    rw [add_assoc]
    exact WalkCost.cons hmem (ih hbc)

/-- Claim C8 (amended): the triangle inequality holds for shortest walk costs
over the adjacency structure built by `buildAdjacencyMap`.  The code's
`getTravelTime` itself violates the inequality because a direct edge
short-circuits the shortest-path computation: see the counterexample. -/
theorem c8_triangle_amended (adj : Adj) (a b c : ℕ) (x y z : ℚ)
    (hab : IsShortestWalk adj a b x) (hbc : IsShortestWalk adj b c y)
    (hac : IsShortestWalk adj a c z) : z ≤ x + y :=
  hac.2 (x + y) (walkCost_append hab.1 hbc.1)

lemma triAdj_lit : triAdj = [(1, [(2,1),(3,1)]), (2, [(1,1),(3,1)]), (3, [(2,1),(1,1)])] := by
  with_unfolding_all rfl

lemma triAdj_cost_one {a b : ℕ} {cst : ℚ} (h : (b, cst) ∈ neighborsOf triAdj a) : cst = 1 := by
  rw [triAdj_lit, neighborsOf] at h
  rcases hf : List.find? (fun kv => decide (kv.1 = a))
      ([(1, [((2:ℕ),(1:ℚ)),(3,1)]), (2, [(1,1),(3,1)]), (3, [(2,1),(1,1)])]) with _ | kv
  · rw [hf] at h
    exact absurd h (List.not_mem_nil _)
  · rw [hf] at h
    have hkv := List.mem_of_find?_eq_some hf
    fin_cases hkv <;> simp_all <;> rcases h with ⟨h1, h2⟩ | ⟨h1, h2⟩ <;> rw [h2]

lemma triWalk_nonneg {u v : ℕ} {w : ℚ} (h : WalkCost triAdj u v w) : 0 ≤ w := by
  induction h with
  | nil a => exact le_refl 0
  | cons hmem rest ih =>
    have h1 := triAdj_cost_one hmem
    rw [h1]
    linarith

lemma triWalk_ge_one {u v : ℕ} {w : ℚ} (hne : u ≠ v) (h : WalkCost triAdj u v w) : 1 ≤ w := by
  cases h with
  | nil a => exact absurd rfl hne
  | cons hmem rest =>
    have h1 := triAdj_cost_one hmem
    have h2 := triWalk_nonneg rest
    rw [h1]
    linarith

lemma triShort12 : IsShortestWalk triAdj 1 2 1 := by
  constructor
  · have hmem : ((2:ℕ), (1:ℚ)) ∈ neighborsOf triAdj 1 := by
      rw [triAdj_lit]
      with_unfolding_all decide
    have hw := WalkCost.cons hmem (WalkCost.nil 2)
    rw [add_zero] at hw
    exact hw
  · exact fun y hy => triWalk_ge_one (by decide) hy

lemma triShort23 : IsShortestWalk triAdj 2 3 1 := by
  constructor
  · have hmem : ((3:ℕ), (1:ℚ)) ∈ neighborsOf triAdj 2 := by
      rw [triAdj_lit]
      with_unfolding_all decide
    have hw := WalkCost.cons hmem (WalkCost.nil 3)
    rw [add_zero] at hw
    exact hw
  · exact fun y hy => triWalk_ge_one (by decide) hy

lemma triShort13 : IsShortestWalk triAdj 1 3 1 := by
  constructor
  · have hmem : ((3:ℕ), (1:ℚ)) ∈ neighborsOf triAdj 1 := by
      rw [triAdj_lit]
      with_unfolding_all decide
    have hw := WalkCost.cons hmem (WalkCost.nil 3)
    rw [add_zero] at hw
    exact hw
  · exact fun y hy => triWalk_ge_one (by decide) hy

/-- Witness for claim C8 (amended) on the concrete unit-cost triangle graph. -/
theorem c8_triangle_witness :
    IsShortestWalk triAdj 1 2 1 ∧ IsShortestWalk triAdj 2 3 1 ∧
      IsShortestWalk triAdj 1 3 1 ∧ (1:ℚ) ≤ 1 + 1 :=
  ⟨triShort12, triShort23, triShort13,
    c8_triangle_amended triAdj 1 2 3 1 1 1 triShort12 triShort23 triShort13⟩

/-- Counterexample to claim C8 as stated: on a graph with a direct edge of
cost 100 between nodes 1 and 3 and a two-edge path of cost 2 through node 2,
`getTravelTime` returns 100, 1 and 1, violating the triangle inequality. -/
theorem c8_counterexample :
    getTravelTime 1 3 (buildAdjacencyMap [⟨1,3,100⟩,⟨1,2,1⟩,⟨2,3,1⟩]) = some 100 ∧
    getTravelTime 1 2 (buildAdjacencyMap [⟨1,3,100⟩,⟨1,2,1⟩,⟨2,3,1⟩]) = some 1 ∧
    getTravelTime 2 3 (buildAdjacencyMap [⟨1,3,100⟩,⟨1,2,1⟩,⟨2,3,1⟩]) = some 1 ∧
    ¬((100:ℚ) ≤ 1 + 1) := by
  refine ⟨by with_unfolding_all rfl, by with_unfolding_all rfl, by with_unfolding_all rfl, by norm_num⟩

/-- Witness for claim C1 on a concrete one-trip schedule. -/
theorem c1_witness :
    verifyNoOverflows c1Routes c1States = true ∧ statesPreVisitOk c1Routes c1States = true :=
  ⟨by with_unfolding_all rfl,
   c1_overflow_free c1Routes c1States (by with_unfolding_all rfl)⟩

/-- Counterexample to claim C2 as stated for arbitrary capacities: with
capacity −1 the builder returns an empty trip whose total collected volume 0
exceeds the capacity. -/
theorem c2_counterexample :
    ¬(sumVolumes (buildSingleRoute 0 [c2Cauldron] c2Adj (-1) 0).1.stops ≤ -1) := by
  have h : sumVolumes (buildSingleRoute 0 [c2Cauldron] c2Adj (-1) 0).1.stops = 0 := by
    with_unfolding_all rfl
  rw [h]
  norm_num

/-- Witness for claim C2 (amended) at capacity 100. -/
theorem c2_witness :
    sumVolumes (buildSingleRoute 0 [c2Cauldron] c2Adj 100 0).1.stops ≤ 100 :=
  c2_capacity_amended 0 [c2Cauldron] c2Adj 100 0 (by norm_num)

/-- Claim C3 evaluation at the failing input: a reachable cauldron holding
only 5 litres is committed as a stop collecting the 10-litre worthwhile
minimum — more than is physically available — leaving the pool level at −5. -/
theorem c3_failing_eval :
    ((buildSingleRoute 0 [c3Cauldron] c3Adj 100 0).1.stops.map
      (fun st => st.volumeCollected)) = [10, 0] ∧
    c3Cauldron.currentLevel = 5 ∧ (5:ℚ) < 10 ∧
    ((buildSingleRoute 0 [c3Cauldron] c3Adj 100 0).2.2.map
      (fun c => c.currentLevel)) = [-5] := by
  refine ⟨by with_unfolding_all rfl, rfl, by norm_num, by with_unfolding_all rfl⟩

/-- Counterexample to part (b) of claim C4: cauldron 2 is absent from the
travel graph (hence unreachable), yet the returned schedule's only
unreachability report, the `unreachableCauldrons` count, is 0 — the reservoir
is dropped from the output rather than listed. -/
theorem c4_counterexample :
    adjHasKey (buildAdjacencyMap [⟨0,1,5⟩]) 2 = false ∧
    (optimizeRoutes [⟨1,1000,1⟩, ⟨2,1000,1⟩] [⟨1,0,350⟩, ⟨2,0,350⟩] 0 [⟨0,1,5⟩]
      [⟨100⟩] []).isSome = true ∧
    (optimizeRoutes [⟨1,1000,1⟩, ⟨2,1000,1⟩] [⟨1,0,350⟩, ⟨2,0,350⟩] 0 [⟨0,1,5⟩]
      [⟨100⟩] []).elim 1 (fun r => r.stats.unreachableCauldrons) = 0 := by
  refine ⟨by with_unfolding_all rfl, by with_unfolding_all rfl, by with_unfolding_all rfl⟩

/-- Claim C5 (amended): an empty courier roster does not abort the planning
run: `optimizeRoutes` behaves exactly as if a single courier with the default
capacity 100 had been supplied.  (Only a missing depot node or an empty
reachable set yields the aborting `none`.) -/
theorem c5_empty_roster_amended (cauldrons : List CauldronInput) (levels : List LevelEntry)
    (marketId : ℕ) (edges : List Edge) (allLevels : List LevelEntry) :
    optimizeRoutes cauldrons levels marketId edges [] allLevels =
      optimizeRoutes cauldrons levels marketId edges [⟨100⟩] allLevels := by
  with_unfolding_all rfl

/-- Counterexample to claim C5 as stated: with an empty courier roster, a
present depot and a reachable reservoir, the run completes and returns a
schedule instead of aborting. -/
theorem c5_counterexample :
    (optimizeRoutes [⟨1,1000,1⟩] [⟨1,0,350⟩] 0 [⟨0,1,5⟩] [] []).isSome = true := by
  with_unfolding_all rfl

/-- Claim C10: with one reachable reservoir and courier capacity 5 (below the
10-litre worthwhile minimum) the scheduler returns a non-null schedule whose
routes list is empty and whose trip count is 0, with aggregate statistics
computed over that empty route set, rather than aborting or raising an
error. -/
theorem c10_empty_schedule :
    (optimizeRoutes [⟨1,1000,1⟩] [⟨1,0,350⟩] 0 [⟨0,1,5⟩] [⟨5⟩] []).isSome = true ∧
    (optimizeRoutes [⟨1,1000,1⟩] [⟨1,0,350⟩] 0 [⟨0,1,5⟩] [⟨5⟩] []).elim [⟨0,0,[]⟩]
      (fun r => r.routes) = [] ∧
    (optimizeRoutes [⟨1,1000,1⟩] [⟨1,0,350⟩] 0 [⟨0,1,5⟩] [⟨5⟩] []).elim 1
      (fun r => r.totalTrips) = 0 ∧
    (optimizeRoutes [⟨1,1000,1⟩] [⟨1,0,350⟩] 0 [⟨0,1,5⟩] [⟨5⟩] []).elim 1
      (fun r => r.stats.totalStops) = 0 ∧
    (optimizeRoutes [⟨1,1000,1⟩] [⟨1,0,350⟩] 0 [⟨0,1,5⟩] [⟨5⟩] []).elim 1
      (fun r => r.stats.totalVolume) = 0 ∧
    (optimizeRoutes [⟨1,1000,1⟩] [⟨1,0,350⟩] 0 [⟨0,1,5⟩] [⟨5⟩] []).elim 1
      (fun r => r.dailySchedule.totalShifts) = 0 := by
  refine ⟨by with_unfolding_all rfl, by with_unfolding_all rfl, by with_unfolding_all rfl,
    by with_unfolding_all rfl, by with_unfolding_all rfl, by with_unfolding_all rfl⟩

/-- Claim C4 (amended): part (a) holds — a node with infinite Dijkstra
distance from the market never appears as a stop in any trip of the returned
schedule.  Part (b) fails: unreachable reservoirs are not listed in the
returned schedule (the `unreachableCauldrons` statistic counts leftover
reachable reservoirs instead); see the counterexample. -/
theorem c4_unreachable_amended (cauldrons : List CauldronInput) (levels : List LevelEntry)
    (marketId : ℕ) (edges : List Edge) (couriers : List Courier)
    (allLevels : List LevelEntry) (x : ℕ)
    (hx : (dijkstra (buildAdjacencyMap edges) marketId x).dist = none) :
    ((optimizeRoutes cauldrons levels marketId edges couriers allLevels).elim []
        (fun r => r.routes)).all
      (fun w => w.trips.all (fun t => t.stops.all
        (fun st => decide (st.cauldronId ≠ x)))) = true := by
  rw [List.all_eq_true]
  intro w hw
  rw [List.all_eq_true]
  intro t ht
  rw [List.all_eq_true]
  intro st hst
  rw [decide_eq_true_eq]
  exact optimizeRoutes_avoids cauldrons levels marketId edges couriers allLevels x hx
    w hw t ht st hst

/-- Witness for claim C4 (amended): in the two-cauldron scenario with
cauldron 2 unreachable, no stop of the returned schedule visits node 2. -/
theorem c4_witness :
    ((optimizeRoutes [⟨1,1000,1⟩, ⟨2,1000,1⟩] [⟨1,0,350⟩, ⟨2,0,350⟩] 0 [⟨0,1,5⟩]
        [⟨100⟩] []).elim [] (fun r => r.routes)).all
      (fun w => w.trips.all (fun t => t.stops.all
        (fun st => decide (st.cauldronId ≠ 2)))) = true :=
  c4_unreachable_amended [⟨1,1000,1⟩, ⟨2,1000,1⟩] [⟨1,0,350⟩, ⟨2,0,350⟩] 0 [⟨0,1,5⟩]
    [⟨100⟩] [] 2 (by with_unfolding_all rfl)

end RouteOptimizer
